import Mathlib

/-!
Formal model of the turtlecoin-v2 core, shallowly embedded from the C++
sources (src/include/blockchain/*.h, src/src/core/*.cpp, src/src/p2p/*.cpp,
src/src/core/staking_engine.cpp and friends).

Modelling conventions.

The binary codec (serializer_t / deserializer_t) writes a flat byte stream:
varints are LEB128 byte groups, fixed 32-byte crypto objects (public keys,
secret keys, commitments, key images, signatures) are raw bytes, and
SHA3-256 outputs (crypto_hash_t) are 32-byte words.  We model the stream as
a list of atoms: an atom is either a raw byte or an (opaque) SHA3 word.
SHA3 is modelled as a free constructor on streams, i.e. as a collision-free
random oracle: two SHA3 outputs are equal exactly when their preimages are
equal byte-for-byte.  This is the standard idealization under which the
content-addressing claims of the specification are stated; every inequality
of hashes proved below corresponds to a genuine preimage difference in the
real byte encoding (the preimages differ in length or in a raw byte, so
equality of the real SHA3-256 outputs would be a hash collision).

Reading a crypto_hash_t back out of a stream therefore expects a hash word
at the current position; if raw bytes sit there instead, the real machine
would reinterpret 32 arbitrary bytes as a hash, which the idealized model
reports as a misparse (Option.none).  No claim below depends on that corner.

Machine integers (uint64_t counters, amounts, sizes) are modelled as Nat;
none of the modelled code paths exercise 64-bit wraparound.

LMDB sub-databases are modelled as association lists kept sorted by key,
matching the B+tree key order that MDB_SET_RANGE cursors rely on; `put`
overwrites, `del` of an absent key reports not-found, exactly as the
wrappers in src/src/database/db_lmdb.h behave.
-/

namespace Turtle

/-- Stream atom: a raw byte or an opaque 32-byte SHA3 word (crypto_hash_t). -/
inductive Atom where
  | byte : Nat → Atom
  | hash : List Atom → Atom

/-- Serialized byte stream (serializer_t contents). -/
abbrev Stream := List Atom

mutual

/-- Boolean equality on atoms (structural). -/
def Atom.beq : Atom → Atom → Bool
  | .byte a, .byte b => a == b
  | .hash xs, .hash ys => Atom.beqList xs ys
  | _, _ => false

/-- Boolean equality on atom lists (structural). -/
def Atom.beqList : List Atom → List Atom → Bool
  | [], [] => true
  | x :: xs, y :: ys => Atom.beq x y && Atom.beqList xs ys
  | _, _ => false

end

mutual

/-- Soundness of Atom.beq: boolean equality coincides with propositional equality. -/
def Atom.beq_eq : ∀ (a b : Atom), Atom.beq a b = true ↔ a = b
  | .byte x, .byte y => by simp [Atom.beq]
  | .byte x, .hash ys => by simp [Atom.beq]
  | .hash xs, .byte y => by simp [Atom.beq]
  | .hash xs, .hash ys => by
      rw [Atom.beq, Atom.beqList_eq xs ys]
      simp

/-- Soundness of Atom.beqList. -/
def Atom.beqList_eq : ∀ (xs ys : List Atom), Atom.beqList xs ys = true ↔ xs = ys
  | [], [] => by simp [Atom.beqList]
  | [], _ :: _ => by simp [Atom.beqList]
  | _ :: _, [] => by simp [Atom.beqList]
  | x :: xs, y :: ys => by
      rw [Atom.beqList, Bool.and_eq_true, Atom.beq_eq x y, Atom.beqList_eq xs ys]
      simp

end

instance : DecidableEq Atom := fun a b => decidable_of_iff _ (Atom.beq_eq a b)

/-- Crypto.Hashing.sha3: modelled as a free (hence injective) constructor. -/
def sha3 (s : Stream) : Atom := Atom.hash s

/-- Fixed 32-byte crypto object (public/secret key, commitment, key image,
signature); modelled as its raw byte list. -/
abbrev Key := List Nat

/-- LEB128 varint encoder, structural-recursion form (fuel is the number). -/
def varintEncodeAux : Nat → Nat → List Nat
  | 0, _ => []
  | fuel + 1, n => if n < 128 then [n] else (n % 128 + 128) :: varintEncodeAux fuel (n / 128)

/-- serializer_t::varint — LEB128 little-endian groups of 7 bits. -/
def varintEncode (n : Nat) : List Nat := varintEncodeAux (n + 1) n

/-- Write a varint to the stream. -/
def wVarint (n : Nat) : Stream := (varintEncode n).map Atom.byte

/-- Write a fixed 32-byte crypto object (serializer_t::key on key types). -/
def wKey (k : Key) : Stream := k.map Atom.byte

/-- Write a crypto_hash_t (serializer_t::key on a hash): one opaque word. -/
def wHash (h : Atom) : Stream := [h]

/-- Write raw bytes with no length prefix (serializer_t::bytes). -/
def wBytes (b : List Nat) : Stream := b.map Atom.byte

/-- Write a length-prefixed vector of 32-byte keys (serializer_t::key on a
std::vector of key types). -/
def wKeyV (ks : List Key) : Stream := wVarint ks.length ++ ks.flatMap wKey

/-- Write a length-prefixed vector of crypto_hash_t values. -/
def wHashV (hs : List Atom) : Stream := wVarint hs.length ++ hs.flatMap wHash

/-- Write a boolean byte (serializer_t::boolean). -/
def wBool (b : Bool) : Stream := [Atom.byte (if b then 1 else 0)]

/-- deserializer_t: read one raw byte. -/
def readByte : Stream → Option (Nat × Stream)
  | .byte b :: rest => some (b, rest)
  | _ => none

/-- deserializer_t::key on a 32-byte crypto object: read 32 raw bytes. -/
def readKeyAux : Nat → Stream → Option (Key × Stream)
  | 0, s => some ([], s)
  | n + 1, s => do
      let (b, s) ← readByte s
      let (k, s) ← readKeyAux n s
      pure (b :: k, s)

/-- Read a 32-byte crypto object from the stream. -/
def readKey (s : Stream) : Option (Key × Stream) := readKeyAux 32 s

/-- deserializer_t::key on a crypto_hash_t: read one opaque SHA3 word. -/
def readHash : Stream → Option (Atom × Stream)
  | .hash xs :: rest => some (.hash xs, rest)
  | _ => none

/-- deserializer_t::varint, LEB128 decode (structural on the stream). -/
def readVarint : Stream → Option (Nat × Stream)
  | .byte b :: rest =>
      if b < 128 then some (b, rest)
      else do
        let (v, s) ← readVarint rest
        pure (b - 128 + 128 * v, s)
  | _ => none

/-- Total order on atoms mirroring lexicographic byte order of the encoded
forms; used for LMDB key ordering and std::set / std::map ordering. -/
def Atom.cmp : Atom → Atom → Ordering
  | .byte a, .byte b => compare a b
  | .byte _, .hash _ => .lt
  | .hash _, .byte _ => .gt
  | .hash xs, .hash ys => cmpList xs ys
where cmpList : List Atom → List Atom → Ordering
  | [], [] => .eq
  | [], _ :: _ => .lt
  | _ :: _, [] => .gt
  | x :: xs, y :: ys =>
    match Atom.cmp x y with
    | .eq => cmpList xs ys
    | o => o

/-- Lexicographic order on raw 32-byte objects (std::map key order). -/
def Key.cmp : Key → Key → Ordering
  | [], [] => .eq
  | [], _ :: _ => .lt
  | _ :: _, [] => .gt
  | x :: xs, y :: ys =>
    match compare x y with
    | .eq => Key.cmp xs ys
    | o => o

/-- TransactionType tag values (BaseTypes::TransactionType). -/
def TX_GENESIS : Nat := 0
/-- STAKER_REWARD tag. -/
def TX_STAKER : Nat := 1
/-- NORMAL tag. -/
def TX_NORMAL : Nat := 2
/-- STAKE tag. -/
def TX_STAKE : Nat := 3
/-- RECALL_STAKE tag. -/
def TX_RECALL_STAKE : Nat := 4
/-- STAKE_REFUND tag. -/
def TX_STAKE_REFUND : Nat := 5

/-- BaseTypes::TransactionOutput. -/
structure transaction_output_t where
  public_ephemeral : Key
  amount : Nat
  commitment : Key
  deriving DecidableEq

/-- TransactionOutput::serialize — public_ephemeral, varint amount, commitment. -/
def transaction_output_t.serialize (o : transaction_output_t) : Stream :=
  wKey o.public_ephemeral ++ wVarint o.amount ++ wKey o.commitment

/-- TransactionOutput::hash — SHA3 of the serialized form. -/
def transaction_output_t.hash (o : transaction_output_t) : Atom :=
  sha3 o.serialize

/-- TransactionOutput::deserialize — key, varint, key, in that order. -/
def transaction_output_t.deserialize (s : Stream) :
    Option (transaction_output_t × Stream) := do
  let (pe, s) ← readKey s
  let (am, s) ← readVarint s
  let (cm, s) ← readKey s
  pure (⟨pe, am, cm⟩, s)

/-- BaseTypes::StakerOutput. -/
structure staker_output_t where
  staker_id : Atom
  amount : Nat
  deriving DecidableEq

/-- StakerOutput::serialize — staker_id hash then varint amount. -/
def staker_output_t.serialize (o : staker_output_t) : Stream :=
  wHash o.staker_id ++ wVarint o.amount

/-- TransactionPrefix::serialize_prefix contents: varint type, varint version,
varint unlock_block, public_key. -/
def serializePrefix (ty version unlock_block : Nat) (public_key : Key) : Stream :=
  wVarint ty ++ wVarint version ++ wVarint unlock_block ++ wKey public_key

/-- TransactionUserBody::serialize_body contents: varint nonce, varint fee,
key-vector of key images, varint output count, outputs. -/
def serializeBody (nonce fee : Nat) (key_images : List Key)
    (outputs : List transaction_output_t) : Stream :=
  wVarint nonce ++ wVarint fee ++ wKeyV key_images ++
    wVarint outputs.length ++ outputs.flatMap transaction_output_t.serialize

/-- RecallStakeTransactionData::serialize_data contents. -/
def serializeRecallStakeData (stake_amount : Nat) (candidate_public_key : Key)
    (staker_id : Atom) (view_signature spend_signature : Key) : Stream :=
  wVarint stake_amount ++ wKey candidate_public_key ++ wHash staker_id ++
    wKey view_signature ++ wKey spend_signature

/-- StakeTransactionData::serialize_data contents. -/
def serializeStakeData (stake_amount : Nat)
    (candidate_public_key staker_public_view_key staker_public_spend_key : Key) :
    Stream :=
  wVarint stake_amount ++ wKey candidate_public_key ++
    wKey staker_public_view_key ++ wKey staker_public_spend_key

/-- NormalTransactionData::serialize_data contents: varint size then bytes. -/
def serializeNormalData (extra : List Nat) : Stream :=
  wVarint extra.length ++ wBytes extra

/-- Types::Blockchain::committed_recall_stake_transaction_t
(src/include/blockchain/base_types.h, recall-stake section). -/
structure committed_recall_stake_transaction_t where
  version : Nat
  unlock_block : Nat
  public_key : Key
  nonce : Nat
  fee : Nat
  key_images : List Key
  outputs : List transaction_output_t
  stake_amount : Nat
  candidate_public_key : Key
  staker_id : Atom
  view_signature : Key
  spend_signature : Key
  signature_hash : Atom
  range_proof_hash : Atom
  deriving DecidableEq

namespace committed_recall_stake_transaction_t

/-- serialize_digest: prefix, body, data (no suffix). -/
def serialize_digest (t : committed_recall_stake_transaction_t) : Stream :=
  serializePrefix TX_RECALL_STAKE t.version t.unlock_block t.public_key ++
    serializeBody t.nonce t.fee t.key_images t.outputs ++
    serializeRecallStakeData t.stake_amount t.candidate_public_key t.staker_id
      t.view_signature t.spend_signature

/-- digest — SHA3 of serialize_digest. -/
def digest (t : committed_recall_stake_transaction_t) : Atom :=
  sha3 t.serialize_digest

/-- CommittedTransactionSuffix::serialize_suffix: the two stored hashes. -/
def serialize_suffix (t : committed_recall_stake_transaction_t) : Stream :=
  wHash t.signature_hash ++ wHash t.range_proof_hash

/-- serialize: prefix, body, data, suffix. -/
def serialize (t : committed_recall_stake_transaction_t) : Stream :=
  t.serialize_digest ++ t.serialize_suffix

/-- hash: SHA3 over digest, signature_hash, range_proof_hash. -/
def hash (t : committed_recall_stake_transaction_t) : Atom :=
  sha3 (wHash t.digest ++ wHash t.signature_hash ++ wHash t.range_proof_hash)

end committed_recall_stake_transaction_t

/-- Types::Blockchain::uncommitted_recall_stake_transaction_t.  CLSAG
signatures and the bulletproof+ range proof are external crypto objects; each
is modelled by its serialized stream, and its hash (as the external library
computes it) is the SHA3 of that stream. -/
structure uncommitted_recall_stake_transaction_t where
  version : Nat
  unlock_block : Nat
  public_key : Key
  nonce : Nat
  fee : Nat
  key_images : List Key
  outputs : List transaction_output_t
  stake_amount : Nat
  candidate_public_key : Key
  staker_id : Atom
  view_signature : Key
  spend_signature : Key
  pseudo_commitments : List Key
  ring_participants : List Atom
  signatures : List Stream
  range_proof : Stream
  deriving DecidableEq

namespace uncommitted_recall_stake_transaction_t

/-- serialize_digest: prefix, body, data (no suffix). -/
def serialize_digest (t : uncommitted_recall_stake_transaction_t) : Stream :=
  serializePrefix TX_RECALL_STAKE t.version t.unlock_block t.public_key ++
    serializeBody t.nonce t.fee t.key_images t.outputs ++
    serializeRecallStakeData t.stake_amount t.candidate_public_key t.staker_id
      t.view_signature t.spend_signature

/-- digest — SHA3 of serialize_digest. -/
def digest (t : uncommitted_recall_stake_transaction_t) : Atom :=
  sha3 t.serialize_digest

/-- UncommittedTransactionSuffix::signature_hash: SHA3 over pseudo
commitments, ring participants and the signature vector. -/
def signature_hash (t : uncommitted_recall_stake_transaction_t) : Atom :=
  sha3 (wKeyV t.pseudo_commitments ++ wHashV t.ring_participants ++
    wVarint t.signatures.length ++ t.signatures.flatMap id)

/-- UncommittedTransactionSuffix::range_proof_hash = range_proof.hash(). -/
def range_proof_hash (t : uncommitted_recall_stake_transaction_t) : Atom :=
  sha3 t.range_proof

/-- UncommittedTransactionSuffix::serialize_suffix. -/
def serialize_suffix (t : uncommitted_recall_stake_transaction_t) : Stream :=
  wKeyV t.pseudo_commitments ++ wHashV t.ring_participants ++
    wVarint t.signatures.length ++ t.signatures.flatMap id ++ t.range_proof

/-- serialize: prefix, body, data, suffix. -/
def serialize (t : uncommitted_recall_stake_transaction_t) : Stream :=
  t.serialize_digest ++ t.serialize_suffix

/-- hash: SHA3 over digest, signature_hash(), range_proof_hash(). -/
def hash (t : uncommitted_recall_stake_transaction_t) : Atom :=
  sha3 (wHash t.digest ++ wHash t.signature_hash ++ wHash t.range_proof_hash)

/-- to_committed: copy every prefix/body/data field and store the computed
signature_hash / range_proof_hash. -/
def to_committed (t : uncommitted_recall_stake_transaction_t) :
    committed_recall_stake_transaction_t where
  version := t.version
  unlock_block := t.unlock_block
  public_key := t.public_key
  nonce := t.nonce
  fee := t.fee
  key_images := t.key_images
  outputs := t.outputs
  staker_id := t.staker_id
  candidate_public_key := t.candidate_public_key
  stake_amount := t.stake_amount
  view_signature := t.view_signature
  spend_signature := t.spend_signature
  signature_hash := t.signature_hash
  range_proof_hash := t.range_proof_hash

end uncommitted_recall_stake_transaction_t

/-- TurtleCoin::Types::Blockchain::committed_stake_transaction_t
(src/include/blockchain/transaction_stake.h).  This header predates the
signature_hash/range_proof_hash split: the committed form stores one
pruning_hash.  Its base-type serializers are absent from the sources; the
prefix/body/data layouts are modelled from the spec (Transaction binary
format, section 6), which matches the surviving recall-stake base types. -/
structure committed_stake_transaction_t where
  version : Nat
  unlock_block : Nat
  tx_public_key : Key
  nonce : Nat
  fee : Nat
  key_images : List Key
  outputs : List transaction_output_t
  stake_amount : Nat
  candidate_public_key : Key
  staker_public_view_key : Key
  staker_public_spend_key : Key
  pruning_hash : Atom
  deriving DecidableEq

namespace committed_stake_transaction_t

/-- serialize_digest: prefix, body, data (no suffix). -/
def serialize_digest (t : committed_stake_transaction_t) : Stream :=
  serializePrefix TX_STAKE t.version t.unlock_block t.tx_public_key ++
    serializeBody t.nonce t.fee t.key_images t.outputs ++
    serializeStakeData t.stake_amount t.candidate_public_key
      t.staker_public_view_key t.staker_public_spend_key

/-- digest — SHA3 of serialize_digest. -/
def digest (t : committed_stake_transaction_t) : Atom :=
  sha3 t.serialize_digest

/-- serialize_suffix of the committed form: the stored pruning hash. -/
def serialize_suffix (t : committed_stake_transaction_t) : Stream :=
  wHash t.pruning_hash

/-- serialize: prefix, body, data, suffix. -/
def serialize (t : committed_stake_transaction_t) : Stream :=
  t.serialize_digest ++ t.serialize_suffix

/-- hash, exactly as written in the source: writer.key(digest()), then
pruning_hash.serialize(writer), then writer.key(pruning_hash) — the pruning
hash enters the preimage twice. -/
def hash (t : committed_stake_transaction_t) : Atom :=
  sha3 (wHash t.digest ++ wHash t.pruning_hash ++ wHash t.pruning_hash)

end committed_stake_transaction_t

/-- TurtleCoin::Types::Blockchain::uncommitted_stake_transaction_t.  The
uncommitted suffix type of this era is absent from the sources; it is
modelled by its serialized stream, with pruning_hash() = suffix_hash() =
SHA3 of that stream as the header's forwarding definition states. -/
structure uncommitted_stake_transaction_t where
  version : Nat
  unlock_block : Nat
  tx_public_key : Key
  nonce : Nat
  fee : Nat
  key_images : List Key
  outputs : List transaction_output_t
  stake_amount : Nat
  candidate_public_key : Key
  staker_public_view_key : Key
  staker_public_spend_key : Key
  suffix : Stream
  deriving DecidableEq

namespace uncommitted_stake_transaction_t

/-- serialize_digest: prefix, body, data (no suffix). -/
def serialize_digest (t : uncommitted_stake_transaction_t) : Stream :=
  serializePrefix TX_STAKE t.version t.unlock_block t.tx_public_key ++
    serializeBody t.nonce t.fee t.key_images t.outputs ++
    serializeStakeData t.stake_amount t.candidate_public_key
      t.staker_public_view_key t.staker_public_spend_key

/-- digest — SHA3 of serialize_digest. -/
def digest (t : uncommitted_stake_transaction_t) : Atom :=
  sha3 t.serialize_digest

/-- pruning_hash() = suffix_hash(): SHA3 of the serialized suffix. -/
def pruning_hash (t : uncommitted_stake_transaction_t) : Atom :=
  sha3 t.suffix

/-- serialize: prefix, body, data, suffix. -/
def serialize (t : uncommitted_stake_transaction_t) : Stream :=
  t.serialize_digest ++ t.suffix

/-- hash: writer.key(digest()) then writer.key(pruning_hash()) — the pruning
hash enters the preimage once. -/
def hash (t : uncommitted_stake_transaction_t) : Atom :=
  sha3 (wHash t.digest ++ wHash t.pruning_hash)

/-- to_committed: copy every prefix/body/data field and store pruning_hash(). -/
def to_committed (t : uncommitted_stake_transaction_t) :
    committed_stake_transaction_t where
  version := t.version
  unlock_block := t.unlock_block
  tx_public_key := t.tx_public_key
  nonce := t.nonce
  fee := t.fee
  key_images := t.key_images
  outputs := t.outputs
  stake_amount := t.stake_amount
  candidate_public_key := t.candidate_public_key
  staker_public_view_key := t.staker_public_view_key
  staker_public_spend_key := t.staker_public_spend_key
  pruning_hash := t.pruning_hash

end uncommitted_stake_transaction_t

/-- Modelled from the spec: committed_normal_transaction_t — the header
src/include/blockchain/transaction_normal.h is referenced by types.h but is
missing from the sources.  Per the spec (section 3), the committed NORMAL
form carries prefix, body, the extra-bytes data (whose layout survives in
BaseTypes::NormalTransactionData), and the committed suffix holding
signature_hash and range_proof_hash, with
hash = SHA3(digest || signature_hash || range_proof_hash). -/
structure committed_normal_transaction_t where
  version : Nat
  unlock_block : Nat
  public_key : Key
  nonce : Nat
  fee : Nat
  key_images : List Key
  outputs : List transaction_output_t
  extra : List Nat
  signature_hash : Atom
  range_proof_hash : Atom
  deriving DecidableEq

namespace committed_normal_transaction_t

/-- serialize_digest: prefix, body, data (no suffix). -/
def serialize_digest (t : committed_normal_transaction_t) : Stream :=
  serializePrefix TX_NORMAL t.version t.unlock_block t.public_key ++
    serializeBody t.nonce t.fee t.key_images t.outputs ++
    serializeNormalData t.extra

/-- digest — SHA3 of serialize_digest. -/
def digest (t : committed_normal_transaction_t) : Atom :=
  sha3 t.serialize_digest

/-- serialize: prefix, body, data, committed suffix. -/
def serialize (t : committed_normal_transaction_t) : Stream :=
  t.serialize_digest ++ wHash t.signature_hash ++ wHash t.range_proof_hash

/-- hash: SHA3 over digest, signature_hash, range_proof_hash. -/
def hash (t : committed_normal_transaction_t) : Atom :=
  sha3 (wHash t.digest ++ wHash t.signature_hash ++ wHash t.range_proof_hash)

end committed_normal_transaction_t

/-- Modelled from the spec: uncommitted_normal_transaction_t (header missing
from the sources, see committed_normal_transaction_t). -/
structure uncommitted_normal_transaction_t where
  version : Nat
  unlock_block : Nat
  public_key : Key
  nonce : Nat
  fee : Nat
  key_images : List Key
  outputs : List transaction_output_t
  extra : List Nat
  pseudo_commitments : List Key
  ring_participants : List Atom
  signatures : List Stream
  range_proof : Stream
  deriving DecidableEq

namespace uncommitted_normal_transaction_t

/-- serialize_digest: prefix, body, data (no suffix). -/
def serialize_digest (t : uncommitted_normal_transaction_t) : Stream :=
  serializePrefix TX_NORMAL t.version t.unlock_block t.public_key ++
    serializeBody t.nonce t.fee t.key_images t.outputs ++
    serializeNormalData t.extra

/-- digest — SHA3 of serialize_digest. -/
def digest (t : uncommitted_normal_transaction_t) : Atom :=
  sha3 t.serialize_digest

/-- signature_hash over pseudo commitments, ring participants, signatures. -/
def signature_hash (t : uncommitted_normal_transaction_t) : Atom :=
  sha3 (wKeyV t.pseudo_commitments ++ wHashV t.ring_participants ++
    wVarint t.signatures.length ++ t.signatures.flatMap id)

/-- range_proof_hash = range_proof.hash(). -/
def range_proof_hash (t : uncommitted_normal_transaction_t) : Atom :=
  sha3 t.range_proof

/-- serialize: prefix, body, data, uncommitted suffix. -/
def serialize (t : uncommitted_normal_transaction_t) : Stream :=
  t.serialize_digest ++ wKeyV t.pseudo_commitments ++ wHashV t.ring_participants ++
    wVarint t.signatures.length ++ t.signatures.flatMap id ++ t.range_proof

/-- hash: SHA3 over digest, signature_hash(), range_proof_hash(). -/
def hash (t : uncommitted_normal_transaction_t) : Atom :=
  sha3 (wHash t.digest ++ wHash t.signature_hash ++ wHash t.range_proof_hash)

/-- to_committed: copy every prefix/body/data field and store the computed
suffix hashes. -/
def to_committed (t : uncommitted_normal_transaction_t) :
    committed_normal_transaction_t where
  version := t.version
  unlock_block := t.unlock_block
  public_key := t.public_key
  nonce := t.nonce
  fee := t.fee
  key_images := t.key_images
  outputs := t.outputs
  extra := t.extra
  signature_hash := t.signature_hash
  range_proof_hash := t.range_proof_hash

end uncommitted_normal_transaction_t

/-- Types::Blockchain::genesis_transaction_t. -/
structure genesis_transaction_t where
  version : Nat
  unlock_block : Nat
  public_key : Key
  secret_key : Key
  outputs : List transaction_output_t
  deriving DecidableEq

namespace genesis_transaction_t

/-- serialize: prefix, secret_key, varint count, outputs. -/
def serialize (t : genesis_transaction_t) : Stream :=
  serializePrefix TX_GENESIS t.version t.unlock_block t.public_key ++
    wKey t.secret_key ++ wVarint t.outputs.length ++
    t.outputs.flatMap transaction_output_t.serialize

/-- hash — SHA3 of the serialized form. -/
def hash (t : genesis_transaction_t) : Atom :=
  sha3 t.serialize

end genesis_transaction_t

/-- Types::Blockchain::staker_transaction_t (STAKER_REWARD). -/
structure staker_transaction_t where
  version : Nat
  staker_outputs : List staker_output_t
  staker_penalties : List staker_output_t
  deriving DecidableEq

namespace staker_transaction_t

/-- serialize: header, then the two length-prefixed staker output vectors. -/
def serialize (t : staker_transaction_t) : Stream :=
  wVarint TX_STAKER ++ wVarint t.version ++
    wVarint t.staker_outputs.length ++
    t.staker_outputs.flatMap staker_output_t.serialize ++
    wVarint t.staker_penalties.length ++
    t.staker_penalties.flatMap staker_output_t.serialize

/-- hash — SHA3 of the serialized form. -/
def hash (t : staker_transaction_t) : Atom :=
  sha3 t.serialize

end staker_transaction_t

/-- Types::Blockchain::stake_refund_transaction_t. -/
structure stake_refund_transaction_t where
  version : Nat
  unlock_block : Nat
  public_key : Key
  secret_key : Key
  recall_stake_tx : Atom
  outputs : List transaction_output_t
  deriving DecidableEq

namespace stake_refund_transaction_t

/-- serialize: prefix, secret_key, recall_stake_tx hash, varint count, outputs. -/
def serialize (t : stake_refund_transaction_t) : Stream :=
  serializePrefix TX_STAKE_REFUND t.version t.unlock_block t.public_key ++
    wKey t.secret_key ++ wHash t.recall_stake_tx ++ wVarint t.outputs.length ++
    t.outputs.flatMap transaction_output_t.serialize

/-- hash — SHA3 of the serialized form. -/
def hash (t : stake_refund_transaction_t) : Atom :=
  sha3 t.serialize

end stake_refund_transaction_t

/-- Types::Blockchain::transaction_t — the committed transaction variant
stored by the blockchain store. -/
inductive transaction_t where
  | genesis : genesis_transaction_t → transaction_t
  | staker : staker_transaction_t → transaction_t
  | normal : committed_normal_transaction_t → transaction_t
  | recallStake : committed_recall_stake_transaction_t → transaction_t
  | stake : committed_stake_transaction_t → transaction_t
  | stakeRefund : stake_refund_transaction_t → transaction_t
  deriving DecidableEq

namespace transaction_t

/-- Dispatched tx.hash() (std::visit in the storage layer). -/
def hash : transaction_t → Atom
  | .genesis t => t.hash
  | .staker t => t.hash
  | .normal t => t.hash
  | .recallStake t => t.hash
  | .stake t => t.hash
  | .stakeRefund t => t.hash

/-- Dispatched tx.serialize(). -/
def serialize : transaction_t → Stream
  | .genesis t => t.serialize
  | .staker t => t.serialize
  | .normal t => t.serialize
  | .recallStake t => t.serialize
  | .stake t => t.serialize
  | .stakeRefund t => t.serialize

end transaction_t

/-- Reward transaction variant of a block (genesis or staker reward). -/
inductive block_transaction_t where
  | genesis : genesis_transaction_t → block_transaction_t
  | staker : staker_transaction_t → block_transaction_t
  deriving DecidableEq

/-- Dispatched serialize of the reward transaction. -/
def block_transaction_t.serialize : block_transaction_t → Stream
  | .genesis t => t.serialize
  | .staker t => t.serialize

/-- Lift the reward variant into the stored transaction variant. -/
def block_transaction_t.toTransaction : block_transaction_t → transaction_t
  | .genesis t => .genesis t
  | .staker t => .staker t

/-- Ordered insert into a std::set of crypto_hash_t (ascending Atom.cmp). -/
def sortedInsertAtom (h : Atom) : List Atom → List Atom
  | [] => [h]
  | x :: xs =>
    match Atom.cmp h x with
    | .lt => h :: x :: xs
    | _ => x :: sortedInsertAtom h xs

/-- Ordered insert into a std::map keyed by a 32-byte object. -/
def sortedInsertKeyPair (p : Key × Key) : List (Key × Key) → List (Key × Key)
  | [] => [p]
  | x :: xs =>
    match Key.cmp p.1 x.1 with
    | .lt => p :: x :: xs
    | _ => x :: sortedInsertKeyPair p xs

/-- Whether a fixed 32-byte object is empty / Crypto::Z (all zero bytes). -/
def Key.isEmpty (k : Key) : Bool := k.all (fun b => b == 0)

/-- Types::Blockchain::block_t (src/include/blockchain/block.h).  The
transactions member is a std::set stored in ascending hash order, the
validator_signatures member a std::map in ascending key order. -/
structure block_t where
  version : Nat
  previous_blockhash : Atom
  timestamp : Nat
  block_index : Nat
  reward_tx : block_transaction_t
  transactions : List Atom
  producer_public_key : Key
  producer_signature : Key
  validator_signatures : List (Key × Key)
  deriving DecidableEq

namespace block_t

/-- append_transaction_hash: insert the hash only when it is not present. -/
def append_transaction_hash (b : block_t) (h : Atom) : block_t :=
  if h ∈ b.transactions then b
  else { b with transactions := sortedInsertAtom h b.transactions }

/-- append_validator_signature: insert the pair only when the public key is
not already a key of the map. -/
def append_validator_signature (b : block_t) (public_key : Key) (signature : Key) :
    block_t :=
  if (b.validator_signatures.map Prod.fst).contains public_key then b
  else { b with validator_signatures :=
          sortedInsertKeyPair (public_key, signature) b.validator_signatures }

/-- serialize in BLOCK_DIGEST_FULL mode (the form hashed by hash()). -/
def serialize (b : block_t) : Stream :=
  let has_producer := !(Key.isEmpty b.producer_public_key) &&
    !(Key.isEmpty b.producer_signature)
  wVarint b.version ++ wHash b.previous_blockhash ++ wVarint b.timestamp ++
    wVarint b.block_index ++ b.reward_tx.serialize ++
    wVarint b.transactions.length ++ b.transactions.flatMap wHash ++
    wBool has_producer ++
    (if has_producer then wKey b.producer_public_key ++ wKey b.producer_signature
     else []) ++
    wVarint b.validator_signatures.length ++
    b.validator_signatures.flatMap (fun p => wKey p.1 ++ wKey p.2)

/-- hash — message_digest(BLOCK_DIGEST_FULL), the SHA3 of the full form. -/
def hash (b : block_t) : Atom := sha3 b.serialize

end block_t

/-- Error codes used by the modelled subsystems; CODEC_MISPARSE marks a read
the idealized stream model cannot realize (a hash word read out of raw
bytes), where the real machine would reinterpret arbitrary bytes. -/
inductive ErrCode where
  | SUCCESS
  | DB_BLOCK_NOT_FOUND
  | DB_TRANSACTION_NOT_FOUND
  | DB_TRANSACTION_OUTPUT_NOT_FOUND
  | BLOCK_TXN_MISMATCH
  | BLOCK_TXN_ORDER
  | LMDB_NOTFOUND
  | UNKNOWN_TRANSACTION_TYPE
  | CODEC_MISPARSE
  | STAKING_CANDIDATE_ALREADY_EXISTS
  | STAKING_CANDIDATE_AMOUNT_INVALID
  | STAKING_CANDIDATE_NOT_FOUND
  | STAKING_STAKE_AMOUNT
  | TX_INVALID_VERSION
  deriving DecidableEq

/-- LMDB sub-database keyed by crypto_hash_t: association list kept in
ascending key order (B+tree order). -/
abbrev AtomMap (α : Type) : Type := List (Atom × α)

namespace AtomMap

/-- Empty sub-database. -/
def empty {α} : AtomMap α := []

/-- Exact-match lookup (MDB_SET / get). -/
def get {α} : AtomMap α → Atom → Option α
  | [], _ => none
  | (k, v) :: rest, h => if k = h then some v else get rest h

/-- Existence check. -/
def contains {α} (m : AtomMap α) (h : Atom) : Bool := (m.get h).isSome

/-- Insert or overwrite, preserving ascending key order. -/
def put {α} : AtomMap α → Atom → α → AtomMap α
  | [], h, v => [(h, v)]
  | (k, w) :: rest, h, v =>
    match Atom.cmp h k with
    | .lt => (h, v) :: (k, w) :: rest
    | .eq => (h, v) :: rest
    | .gt => (k, w) :: put rest h v

/-- Delete; LMDB reports MDB_NOTFOUND when the key is absent. -/
def del {α} : AtomMap α → Atom → Option (AtomMap α)
  | [], _ => none
  | (k, v) :: rest, h =>
    if k = h then some rest
    else do
      let rest' ← del rest h
      pure ((k, v) :: rest')

/-- Entry count (mdb_stat). -/
def count {α} (m : AtomMap α) : Nat := m.length

end AtomMap

/-- LMDB sub-database keyed by a uint64 (block_indexes, block_timestamps). -/
abbrev NatMap (α : Type) : Type := List (Nat × α)

namespace NatMap

/-- Empty sub-database. -/
def empty {α} : NatMap α := []

/-- Exact-match lookup. -/
def get {α} : NatMap α → Nat → Option α
  | [], _ => none
  | (k, v) :: rest, h => if k = h then some v else get rest h

/-- Existence check. -/
def contains {α} (m : NatMap α) (h : Nat) : Bool := (m.get h).isSome

/-- Insert or overwrite, preserving ascending key order. -/
def put {α} : NatMap α → Nat → α → NatMap α
  | [], h, v => [(h, v)]
  | (k, w) :: rest, h, v =>
    if h < k then (h, v) :: (k, w) :: rest
    else if h = k then (h, v) :: rest
    else (k, w) :: put rest h v

/-- Delete; LMDB reports MDB_NOTFOUND when the key is absent. -/
def del {α} : NatMap α → Nat → Option (NatMap α)
  | [], _ => none
  | (k, v) :: rest, h =>
    if k = h then some rest
    else do
      let rest' ← del rest h
      pure ((k, v) :: rest')

end NatMap

/-- The key_images sub-database: an existence set of 32-byte key images. -/
abbrev KeyImageSet : Type := List Key

namespace KeyImageSet

/-- Empty set. -/
def empty : KeyImageSet := []

/-- Existence check. -/
def contains (s : KeyImageSet) (k : Key) : Bool := s.any (fun x => x == k)

/-- Insert (ordered; overwrite of an existing key is a no-op record). -/
def put : KeyImageSet → Key → KeyImageSet
  | [], k => [k]
  | x :: xs, k =>
    match Key.cmp k x with
    | .lt => k :: x :: xs
    | .eq => x :: xs
    | .gt => x :: put xs k

/-- Delete; MDB_NOTFOUND when absent. -/
def del : KeyImageSet → Key → Option KeyImageSet
  | [], _ => none
  | x :: xs, k =>
    if x = k then some xs
    else do
      let xs' ← del xs k
      pure (x :: xs')

end KeyImageSet

/-- Core::BlockchainStorage state: the six sub-databases of the node store.
Blocks are held structurally (their codec round-trip is not at issue);
transactions and transaction_outputs hold the raw value streams the code
writes, because their read-back order is exactly what the claims examine. -/
structure BlockchainDB where
  blocks : AtomMap block_t
  block_indexes : NatMap Atom
  block_timestamps : NatMap Atom
  transactions : AtomMap Stream
  key_images : KeyImageSet
  transaction_outputs : AtomMap Stream
  deriving DecidableEq

namespace BlockchainDB

/-- Empty store. -/
def empty : BlockchainDB :=
  ⟨AtomMap.empty, NatMap.empty, NatMap.empty, AtomMap.empty,
    KeyImageSet.empty, AtomMap.empty⟩

end BlockchainDB

/-- Read a length-prefixed vector of 32-byte keys (deserializer_t::keyV). -/
def readKeyV (s : Stream) : Option (List Key × Stream) := do
  let (n, s) ← readVarint s
  let rec go : Nat → Stream → Option (List Key × Stream)
    | 0, s => some ([], s)
    | n + 1, s => do
        let (k, s) ← readKey s
        let (ks, s) ← go n s
        pure (k :: ks, s)
  go n s

/-- Read a length-prefixed vector of crypto_hash_t values. -/
def readHashV (s : Stream) : Option (List Atom × Stream) := do
  let (n, s) ← readVarint s
  let rec go : Nat → Stream → Option (List Atom × Stream)
    | 0, s => some ([], s)
    | n + 1, s => do
        let (h, s) ← readHash s
        let (hs, s) ← go n s
        pure (h :: hs, s)
  go n s

/-- Read a counted sequence of transaction outputs. -/
def readOutputs : Nat → Stream → Option (List transaction_output_t × Stream)
  | 0, s => some ([], s)
  | n + 1, s => do
      let (o, s) ← transaction_output_t.deserialize s
      let (os, s) ← readOutputs n s
      pure (o :: os, s)

/-- Shared prefix reader: varint type, varint version, varint unlock_block,
public_key. -/
def readPrefixFields (s : Stream) : Option ((Nat × Nat × Nat × Key) × Stream) := do
  let (ty, s) ← readVarint s
  let (ver, s) ← readVarint s
  let (ub, s) ← readVarint s
  let (pk, s) ← readKey s
  pure ((ty, ver, ub, pk), s)

/-- Shared body reader: varint nonce, varint fee, key image vector, outputs. -/
def readBodyFields (s : Stream) :
    Option ((Nat × Nat × List Key × List transaction_output_t) × Stream) := do
  let (nonce, s) ← readVarint s
  let (fee, s) ← readVarint s
  let (kis, s) ← readKeyV s
  let (n, s) ← readVarint s
  let (os, s) ← readOutputs n s
  pure ((nonce, fee, kis, os), s)

/-- genesis_transaction_t::deserialize. -/
def genesis_transaction_t.deserialize (s : Stream) :
    Option (genesis_transaction_t × Stream) := do
  let ((_, ver, ub, pk), s) ← readPrefixFields s
  let (sk, s) ← readKey s
  let (n, s) ← readVarint s
  let (os, s) ← readOutputs n s
  pure (⟨ver, ub, pk, sk, os⟩, s)

/-- staker_transaction_t::deserialize. -/
def staker_transaction_t.deserialize (s : Stream) :
    Option (staker_transaction_t × Stream) := do
  let (_, s) ← readVarint s
  let (ver, s) ← readVarint s
  let (n, s) ← readVarint s
  let rec go : Nat → Stream → Option (List staker_output_t × Stream)
    | 0, s => some ([], s)
    | n + 1, s => do
        let (sid, s) ← readHash s
        let (am, s) ← readVarint s
        let (os, s) ← go n s
        pure (⟨sid, am⟩ :: os, s)
  let (os, s) ← go n s
  let (m, s) ← readVarint s
  let (ps, s) ← go m s
  pure (⟨ver, os, ps⟩, s)

/-- committed_normal_transaction_t::deserialize (data: extra bytes; suffix:
the two stored hashes). -/
def committed_normal_transaction_t.deserialize (s : Stream) :
    Option (committed_normal_transaction_t × Stream) := do
  let ((_, ver, ub, pk), s) ← readPrefixFields s
  let ((nonce, fee, kis, os), s) ← readBodyFields s
  let (n, s) ← readVarint s
  let (extra, s) ← readKeyAux n s
  let (sh, s) ← readHash s
  let (rph, s) ← readHash s
  pure (⟨ver, ub, pk, nonce, fee, kis, os, extra, sh, rph⟩, s)

/-- committed_stake_transaction_t::deserialize (suffix: pruning hash). -/
def committed_stake_transaction_t.deserialize (s : Stream) :
    Option (committed_stake_transaction_t × Stream) := do
  let ((_, ver, ub, pk), s) ← readPrefixFields s
  let ((nonce, fee, kis, os), s) ← readBodyFields s
  let (sa, s) ← readVarint s
  let (ck, s) ← readKey s
  let (vk, s) ← readKey s
  let (sk, s) ← readKey s
  let (ph, s) ← readHash s
  pure (⟨ver, ub, pk, nonce, fee, kis, os, sa, ck, vk, sk, ph⟩, s)

/-- committed_recall_stake_transaction_t::deserialize. -/
def committed_recall_stake_transaction_t.deserialize (s : Stream) :
    Option (committed_recall_stake_transaction_t × Stream) := do
  let ((_, ver, ub, pk), s) ← readPrefixFields s
  let ((nonce, fee, kis, os), s) ← readBodyFields s
  let (sa, s) ← readVarint s
  let (ck, s) ← readKey s
  let (sid, s) ← readHash s
  let (vs, s) ← readKey s
  let (ss, s) ← readKey s
  let (sh, s) ← readHash s
  let (rph, s) ← readHash s
  pure (⟨ver, ub, pk, nonce, fee, kis, os, sa, ck, sid, vs, ss, sh, rph⟩, s)

/-- stake_refund_transaction_t::deserialize. -/
def stake_refund_transaction_t.deserialize (s : Stream) :
    Option (stake_refund_transaction_t × Stream) := do
  let ((_, ver, ub, pk), s) ← readPrefixFields s
  let (sk, s) ← readKey s
  let (rst, s) ← readHash s
  let (n, s) ← readVarint s
  let (os, s) ← readOutputs n s
  pure (⟨ver, ub, pk, sk, rst, os⟩, s)

/-- Peek the leading varint of a stream without consuming it
(deserializer_t::varint with peek = true). -/
def peekVarint (s : Stream) : Option Nat := (readVarint s).map Prod.fst

namespace BlockchainStorage

/-- BlockchainStorage::block_exists(hash). -/
def block_exists_hash (db : BlockchainDB) (block_hash : Atom) : Bool :=
  db.blocks.contains block_hash

/-- BlockchainStorage::block_exists(index). -/
def block_exists (db : BlockchainDB) (block_index : Nat) : Bool :=
  db.block_indexes.contains block_index

/-- BlockchainStorage::get_block_count — count of the blocks sub-database. -/
def get_block_count (db : BlockchainDB) : Nat := db.blocks.count

/-- BlockchainStorage::get_transaction.  The stored value was written as
serialize(tx) || block_hash; the reader nevertheless reads a block hash
first and then dispatches on a peeked type varint, exactly as the source
does. -/
def get_transaction (db : BlockchainDB) (txn_hash : Atom) :
    Except ErrCode (transaction_t × Atom) :=
  match db.transactions.get txn_hash with
  | none => .error .DB_TRANSACTION_NOT_FOUND
  | some v =>
    match readHash v with
    | none => .error .CODEC_MISPARSE
    | some (block_hash, s) =>
      match peekVarint s with
      | none => .error .CODEC_MISPARSE
      | some ty =>
        if ty = TX_GENESIS then
          match genesis_transaction_t.deserialize s with
          | some (t, _) => .ok (.genesis t, block_hash)
          | none => .error .CODEC_MISPARSE
        else if ty = TX_STAKER then
          match staker_transaction_t.deserialize s with
          | some (t, _) => .ok (.staker t, block_hash)
          | none => .error .CODEC_MISPARSE
        else if ty = TX_NORMAL then
          match committed_normal_transaction_t.deserialize s with
          | some (t, _) => .ok (.normal t, block_hash)
          | none => .error .CODEC_MISPARSE
        else if ty = TX_STAKE then
          match committed_stake_transaction_t.deserialize s with
          | some (t, _) => .ok (.stake t, block_hash)
          | none => .error .CODEC_MISPARSE
        else if ty = TX_RECALL_STAKE then
          match committed_recall_stake_transaction_t.deserialize s with
          | some (t, _) => .ok (.recallStake t, block_hash)
          | none => .error .CODEC_MISPARSE
        else if ty = TX_STAKE_REFUND then
          match stake_refund_transaction_t.deserialize s with
          | some (t, _) => .ok (.stakeRefund t, block_hash)
          | none => .error .CODEC_MISPARSE
        else .error .UNKNOWN_TRANSACTION_TYPE

/-- Helper of get_block: fetch every transaction listed in the block. -/
def getBlockTxs (db : BlockchainDB) : List Atom →
    Except ErrCode (List transaction_t)
  | [] => .ok []
  | h :: rest =>
    match get_transaction db h with
    | .error _ => .error .DB_TRANSACTION_NOT_FOUND
    | .ok (t, _) =>
      match getBlockTxs db rest with
      | .error e => .error e
      | .ok ts => .ok (t :: ts)

/-- BlockchainStorage::get_block(hash). -/
def get_block_hash (db : BlockchainDB) (block_hash : Atom) :
    Except ErrCode (block_t × List transaction_t) :=
  match db.blocks.get block_hash with
  | none => .error .DB_BLOCK_NOT_FOUND
  | some block =>
    match getBlockTxs db block.transactions with
    | .error e => .error e
    | .ok ts => .ok (block, ts)

/-- BlockchainStorage::get_block(index). -/
def get_block (db : BlockchainDB) (block_index : Nat) :
    Except ErrCode (block_t × List transaction_t) :=
  match db.block_indexes.get block_index with
  | none => .error .DB_BLOCK_NOT_FOUND
  | some block_hash => get_block_hash db block_hash

/-- BlockchainStorage::put_transaction_output: the unlock block is packed in
front of the serialized output, keyed by output.hash(). -/
def put_transaction_output (m : AtomMap Stream) (output : transaction_output_t)
    (unlock_block : Nat) : AtomMap Stream :=
  m.put output.hash (wVarint unlock_block ++ output.serialize)

/-- BlockchainStorage::get_transaction_output: deserializes the output from
the start of the stored value, then reads the unlock block varint after it. -/
def get_transaction_output (db : BlockchainDB) (output_hash : Atom) :
    Except ErrCode (transaction_output_t × Nat) :=
  match db.transaction_outputs.get output_hash with
  | none => .error .DB_TRANSACTION_OUTPUT_NOT_FOUND
  | some v =>
    match transaction_output_t.deserialize v with
    | none => .error .CODEC_MISPARSE
    | some (output, s) =>
      match readVarint s with
      | none => .error .CODEC_MISPARSE
      | some (unlock_block, _) => .ok (output, unlock_block)

/-- BlockchainStorage::put_key_image. -/
def put_key_image (s : KeyImageSet) (key_image : Key) : KeyImageSet :=
  s.put key_image

/-- BlockchainStorage::output_count. -/
def output_count (db : BlockchainDB) : Nat := db.transaction_outputs.count

/-- BlockchainStorage::key_image_exists. -/
def key_image_exists (db : BlockchainDB) (key_image : Key) : Bool :=
  db.key_images.contains key_image

/-- Store every output of a transaction (loop body of put_transaction). -/
def putOutputs (m : AtomMap Stream) (outputs : List transaction_output_t)
    (unlock_block : Nat) : AtomMap Stream :=
  outputs.foldl (fun m o => put_transaction_output m o unlock_block) m

/-- BlockchainStorage::put_transaction: store serialize(tx) || block_hash
under tx.hash(); add key images for committed user transactions; store the
outputs (with the transaction's unlock_block) for every variant that has
them — all except the staker reward. -/
def put_transaction (db : BlockchainDB) (tx : transaction_t)
    (block_hash : Atom) : BlockchainDB :=
  let db := { db with transactions :=
    db.transactions.put tx.hash (tx.serialize ++ wHash block_hash) }
  let db :=
    match tx with
    | .normal t =>
        { db with key_images := t.key_images.foldl put_key_image db.key_images }
    | .stake t =>
        { db with key_images := t.key_images.foldl put_key_image db.key_images }
    | .recallStake t =>
        { db with key_images := t.key_images.foldl put_key_image db.key_images }
    | _ => db
  match tx with
  | .normal t =>
      { db with transaction_outputs :=
          putOutputs db.transaction_outputs t.outputs t.unlock_block }
  | .stake t =>
      { db with transaction_outputs :=
          putOutputs db.transaction_outputs t.outputs t.unlock_block }
  | .recallStake t =>
      { db with transaction_outputs :=
          putOutputs db.transaction_outputs t.outputs t.unlock_block }
  | .genesis t =>
      { db with transaction_outputs :=
          putOutputs db.transaction_outputs t.outputs t.unlock_block }
  | .stakeRefund t =>
      { db with transaction_outputs :=
          putOutputs db.transaction_outputs t.outputs t.unlock_block }
  | .staker _ => db

/-- BlockchainStorage::put_block.  The transaction-count and
transaction-order sanity checks run before any write; on failure the store
is untouched.  The writes (reward transaction, user transactions, block,
index, timestamp) all land in one storage transaction. -/
def put_block (db : BlockchainDB) (block : block_t)
    (transactions : List transaction_t) : ErrCode × BlockchainDB :=
  if transactions.length ≠ block.transactions.length then
    (.BLOCK_TXN_MISMATCH, db)
  else
    let block_hashes := sha3 (block.transactions.flatMap wHash)
    let tx_hashes := sha3 ((transactions.map transaction_t.hash).flatMap wHash)
    if block_hashes ≠ tx_hashes then
      (.BLOCK_TXN_ORDER, db)
    else
      let block_hash := block.hash
      let db := put_transaction db block.reward_tx.toTransaction block_hash
      let db := transactions.foldl (fun d t => put_transaction d t block_hash) db
      let db := { db with blocks := db.blocks.put block_hash block }
      let db := { db with block_indexes :=
        db.block_indexes.put block.block_index block_hash }
      let db := { db with block_timestamps :=
        db.block_timestamps.put block.timestamp block_hash }
      (.SUCCESS, db)

/-- BlockchainStorage::del_key_image. -/
def del_key_image (s : KeyImageSet) (key_image : Key) :
    Except ErrCode KeyImageSet :=
  match s.del key_image with
  | none => .error .LMDB_NOTFOUND
  | some s => .ok s

/-- BlockchainStorage::del_transaction_output. -/
def del_transaction_output (m : AtomMap Stream) (output_hash : Atom) :
    Except ErrCode (AtomMap Stream) :=
  match m.del output_hash with
  | none => .error .LMDB_NOTFOUND
  | some m => .ok m

/-- Delete a list of key images, stopping at the first failure. -/
def delKeyImages (s : KeyImageSet) : List Key → Except ErrCode KeyImageSet
  | [] => .ok s
  | k :: rest =>
    match del_key_image s k with
    | .error e => .error e
    | .ok s => delKeyImages s rest

/-- Delete the stored outputs of a transaction, stopping at failure. -/
def delOutputs (m : AtomMap Stream) : List transaction_output_t →
    Except ErrCode (AtomMap Stream)
  | [] => .ok m
  | o :: rest =>
    match del_transaction_output m o.hash with
    | .error e => .error e
    | .ok m => delOutputs m rest

/-- BlockchainStorage::del_transaction: committed user variants drop their
key images and outputs, genesis and stake refund drop their outputs, then
the transaction record itself is deleted. -/
def del_transaction (db : BlockchainDB) (tx : transaction_t) :
    Except ErrCode BlockchainDB := do
  let db ←
    match tx with
    | .normal t => do
        let kis ← delKeyImages db.key_images t.key_images
        let outs ← delOutputs db.transaction_outputs t.outputs
        pure { db with key_images := kis, transaction_outputs := outs }
    | .stake t => do
        let kis ← delKeyImages db.key_images t.key_images
        let outs ← delOutputs db.transaction_outputs t.outputs
        pure { db with key_images := kis, transaction_outputs := outs }
    | .recallStake t => do
        let kis ← delKeyImages db.key_images t.key_images
        let outs ← delOutputs db.transaction_outputs t.outputs
        pure { db with key_images := kis, transaction_outputs := outs }
    | .genesis t => do
        let outs ← delOutputs db.transaction_outputs t.outputs
        pure { db with transaction_outputs := outs }
    | .stakeRefund t => do
        let outs ← delOutputs db.transaction_outputs t.outputs
        pure { db with transaction_outputs := outs }
    | .staker _ => pure db
  match db.transactions.del tx.hash with
  | none => .error .LMDB_NOTFOUND
  | some m => .ok { db with transactions := m }

/-- Delete every transaction of a block, stopping at the first failure. -/
def delBlockTxs (db : BlockchainDB) : List transaction_t →
    Except ErrCode BlockchainDB
  | [] => .ok db
  | t :: rest =>
    match del_transaction db t with
    | .error e => .error e
    | .ok db => delBlockTxs db rest

/-- BlockchainStorage::del_block(index): fetch the block, then inside one
storage transaction delete its transactions, its timestamp entry, its index
entry and the block record; any failure aborts the transaction, leaving the
store unchanged. -/
def del_block (db : BlockchainDB) (block_index : Nat) :
    ErrCode × BlockchainDB :=
  match get_block db block_index with
  | .error e => (e, db)
  | .ok (block, transactions) =>
    let attempt : Except ErrCode BlockchainDB := do
      let db ← delBlockTxs db transactions
      let ts ←
        match db.block_timestamps.del block.timestamp with
        | none => .error ErrCode.LMDB_NOTFOUND
        | some m => .ok m
      let db := { db with block_timestamps := ts }
      let bi ←
        match db.block_indexes.del block.block_index with
        | none => .error ErrCode.LMDB_NOTFOUND
        | some m => .ok m
      let db := { db with block_indexes := bi }
      let bl ←
        match db.blocks.del block.hash with
        | none => .error ErrCode.LMDB_NOTFOUND
        | some m => .ok m
      pure { db with blocks := bl }
    match attempt with
    | .error e => (e, db)
    | .ok db' => (.SUCCESS, db')

/-- Loop of BlockchainStorage::rewind: for i = block_count down to
block_index + 1, del_block(i); stop at the first error.  The remaining
iteration count k stands for i = block_index + k, so the loop starts at
i = block_count and structural recursion on k mirrors --i. -/
def rewindLoop (block_index : Nat) : BlockchainDB → Nat → ErrCode × BlockchainDB
  | db, 0 => (.SUCCESS, db)
  | db, k + 1 =>
    match del_block db (block_index + k + 1) with
    | (.SUCCESS, db') => rewindLoop block_index db' k
    | (e, db') => (e, db')

/-- BlockchainStorage::rewind: validate the target exists, then delete from
i = get_block_count() down to block_index + 1. -/
def rewind (db : BlockchainDB) (block_index : Nat) : ErrCode × BlockchainDB :=
  if !(block_exists db block_index) then
    (.DB_BLOCK_NOT_FOUND, db)
  else
    rewindLoop block_index db (get_block_count db - block_index)

end BlockchainStorage

/-- Cursor MDB_SET_RANGE: first entry whose key is ≥ the probe, in the
ascending key order the map is kept in. -/
def cursorSetRange (m : AtomMap Stream) (h : Atom) : Option (Atom × Stream) :=
  match m with
  | [] => none
  | (k, v) :: rest =>
    match Atom.cmp h k with
    | .gt => cursorSetRange rest h
    | _ => some (k, v)

/-- Insertion sort of outputs ascending by output hash (std::sort with the
hash-based operator< of TransactionOutput). -/
def sortOutputsInsert (o : transaction_output_t) :
    List transaction_output_t → List transaction_output_t
  | [] => [o]
  | x :: xs =>
    match Atom.cmp o.hash x.hash with
    | .lt => o :: x :: xs
    | _ => x :: sortOutputsInsert o xs

/-- Sort a list of outputs ascending by output hash. -/
def sortOutputs (os : List transaction_output_t) : List transaction_output_t :=
  os.foldr sortOutputsInsert []

/-- Sampling loop of BlockchainStorage::get_random_outputs.  Randomness is
an external stream of probe hashes (rands), indexed from i; fuel bounds the
number of iterations, and none means the loop has not completed within that
bound (the C++ loop has no bound at all).  Each hit is decoded from the
start of the stored value, the unlock block read after it, and the sample is
skipped unless the decoded output hashes back to the cursor key and is
unlocked late enough; accepted outputs are deduplicated. -/
def getRandomOutputsLoop (m : AtomMap Stream) (block_index count : Nat)
    (rands : Nat → Atom) : List transaction_output_t → Nat → Nat →
    Option (List transaction_output_t)
  | _, _, 0 => none
  | results, i, fuel + 1 =>
    if results.length < count then
      match cursorSetRange m (rands i) with
      | none => getRandomOutputsLoop m block_index count rands results (i + 1) fuel
      | some (key, value) =>
        match transaction_output_t.deserialize value with
        | none => none
        | some (output, s) =>
          match readVarint s with
          | none => none
          | some (unlock_block, _) =>
            if output.hash ≠ key ∨ unlock_block < block_index then
              getRandomOutputsLoop m block_index count rands results (i + 1) fuel
            else if output ∈ results then
              getRandomOutputsLoop m block_index count rands results (i + 1) fuel
            else
              getRandomOutputsLoop m block_index count rands
                (results ++ [output]) (i + 1) fuel
    else some (sortOutputs results)

namespace BlockchainStorage

/-- BlockchainStorage::get_random_outputs: fail up front when fewer outputs
exist than requested, otherwise run the sampling loop. -/
def get_random_outputs (db : BlockchainDB) (block_index count : Nat)
    (rands : Nat → Atom) (fuel : Nat) :
    Option (ErrCode × List transaction_output_t) :=
  if db.transaction_outputs.count < count then
    some (.DB_TRANSACTION_OUTPUT_NOT_FOUND, [])
  else
    (getRandomOutputsLoop db.transaction_outputs block_index count rands
      [] 0 fuel).map (fun rs => (.SUCCESS, rs))

end BlockchainStorage

/-- Association map keyed by a 32-byte object, kept in ascending key order. -/
abbrev KeyMap (α : Type) : Type := List (Key × α)

namespace KeyMap

/-- Exact-match lookup. -/
def get {α} : KeyMap α → Key → Option α
  | [], _ => none
  | (k, v) :: rest, h => if k = h then some v else get rest h

/-- Existence check. -/
def contains {α} (m : KeyMap α) (h : Key) : Bool := (m.get h).isSome

/-- Insert or overwrite, preserving ascending key order. -/
def put {α} : KeyMap α → Key → α → KeyMap α
  | [], h, v => [(h, v)]
  | (k, w) :: rest, h, v =>
    match Key.cmp h k with
    | .lt => (h, v) :: (k, w) :: rest
    | .eq => (h, v) :: rest
    | .gt => (k, w) :: put rest h v

end KeyMap

/-- Configuration::Consensus::REQUIRED_CANDIDACY_AMOUNT. -/
def REQUIRED_CANDIDACY_AMOUNT : Nat := 100000

/-- Configuration::Consensus::MINIMUM_STAKE_AMOUNT. -/
def MINIMUM_STAKE_AMOUNT : Nat := 100

/-- Configuration::Consensus::ELECTOR_TARGET_COUNT. -/
def ELECTOR_TARGET_COUNT : Nat := 10

/-- Types::Staking::candidate_node_t (header absent from the sources; fields
per the constructor call in StakingEngine::add_stake and the spec's
Candidate record: key, view key, spend key, total stake). -/
structure candidate_node_t where
  candidate_public_key : Key
  staker_public_view_key : Key
  staker_public_spend_key : Key
  total_stake : Nat
  deriving DecidableEq

/-- Types::Staking::stake_t (src/include/staking/stake.h). -/
structure stake_t where
  record_version : Nat
  candidate_public_key : Key
  public_view_key : Key
  public_spend_key : Key
  stake : Nat
  deriving DecidableEq

/-- Core::StakingEngine state: the candidates sub-database and the
duplicate-key stakes sub-database (one candidate key, many stake records). -/
structure StakingDB where
  candidates : KeyMap candidate_node_t
  stakes : List (Key × stake_t)
  deriving DecidableEq

/-- StakingEngine::add_stake (src/src/core/staking_engine.cpp).  Version 1
registers a candidacy; version 2 validates the vote and then — the body is
marked TODO: finish in the source — returns success without writing any
stake record. -/
def StakingEngine.add_stake (db : StakingDB)
    (tx : committed_stake_transaction_t) : ErrCode × StakingDB :=
  if tx.version = 1 then
    if db.candidates.contains tx.candidate_public_key then
      (.STAKING_CANDIDATE_ALREADY_EXISTS, db)
    else if tx.stake_amount ≠ REQUIRED_CANDIDACY_AMOUNT then
      (.STAKING_CANDIDATE_AMOUNT_INVALID, db)
    else
      let candidate : candidate_node_t :=
        ⟨tx.candidate_public_key, tx.staker_public_view_key,
          tx.staker_public_spend_key, tx.stake_amount⟩
      (.SUCCESS,
        { db with candidates :=
            db.candidates.put tx.candidate_public_key candidate })
  else if tx.version = 2 then
    if !(db.candidates.contains tx.candidate_public_key) then
      (.STAKING_CANDIDATE_NOT_FOUND, db)
    else if tx.stake_amount < MINIMUM_STAKE_AMOUNT then
      (.STAKING_STAKE_AMOUNT, db)
    else
      (.SUCCESS, db)
  else
    (.TX_INVALID_VERSION, db)

mutual

/-- Deterministic reading of a SHA3 word as an unsigned integer (the spec
treats the 256-bit output as an integer; the model uses a fixed structural
encoding, which is all the election algorithm's determinism needs). -/
def Atom.seedNat : Atom → Nat
  | .byte b => b
  | .hash xs => Atom.seedNatList xs + 1

/-- Companion of Atom.seedNat on streams. -/
def Atom.seedNatList : List Atom → Nat
  | [] => 0
  | x :: xs => Atom.seedNat x * 256 + Atom.seedNatList xs

end

/-- Walk the cumulative stake weights and select the candidate whose band
contains r (weighted selection step of the election). -/
def weightedPickLoop : List (Key × Nat) → Nat → Option Key
  | [], _ => none
  | (k, w) :: rest, r => if r < w then some k else weightedPickLoop rest (r - w)

/-- Weighted deterministic selection among candidates: reduce the drawn
integer modulo the total stake and walk the cumulative bands; none when no
stake weight exists at all. -/
def weightedPick (cands : List (Key × Nat)) (r : Nat) : Option Key :=
  let total := (cands.map Prod.snd).sum
  if total = 0 then none else weightedPickLoop cands (r % total)

/-- Ascending insertion by candidate key (lexicographic tie-break order). -/
def sortCandidatesInsert (p : Key × Nat) :
    List (Key × Nat) → List (Key × Nat)
  | [] => [p]
  | x :: xs =>
    match Key.cmp p.1 x.1 with
    | .lt => p :: x :: xs
    | _ => x :: sortCandidatesInsert p xs

/-- Sort the candidate/weight list ascending by candidate public key. -/
def sortCandidates (cands : List (Key × Nat)) : List (Key × Nat) :=
  cands.foldr sortCandidatesInsert []

/-- Successive SHA3 extension of the seed: S_i = SHA3(S || i). -/
def seedExtend (S : Atom) (i : Nat) : Atom := sha3 (wHash S ++ wVarint i)

/-- Draw up to n distinct candidates by weighted deterministic sampling
driven by successive SHA3 extensions of the seed; returns the drawn keys and
the next extension counter. -/
def drawCandidates (S : Atom) : Nat → List (Key × Nat) → Nat →
    List Key × Nat
  | 0, _, i => ([], i)
  | n + 1, cands, i =>
    match weightedPick cands (Atom.seedNat (seedExtend S i)) with
    | none => ([], i + 1)
    | some k =>
      let rest := drawCandidates S n (cands.filter (fun p => p.1 ≠ k)) (i + 1)
      (k :: rest.1, rest.2)

/-- Deduplicating append of the permanent candidates in front of a drawn
list (each permanent candidate is always seated, once). -/
def dedupKeys : List Key → List Key
  | [] => []
  | k :: rest => if k ∈ rest then dedupKeys rest else k :: dedupKeys rest

/-- Overlap resolution: a validator slot whose candidate was also elected
producer keeps the candidate in the producer set and re-draws the slot from
the remaining pool (candidates not already producers or validators); the
slot is dropped when the pool has no stake weight left. -/
def resolveOverlap (S : Atom) (producers : List Key) :
    List Key → List (Key × Nat) → Nat → List Key
  | [], _, _ => []
  | v :: rest, pool, i =>
    if v ∈ producers then
      match weightedPick pool (Atom.seedNat (seedExtend S i)) with
      | none => resolveOverlap S producers rest pool (i + 1)
      | some k =>
        k :: resolveOverlap S producers rest
          (pool.filter (fun p => p.1 ≠ k)) (i + 1)
    else v :: resolveOverlap S producers rest pool (i + 1)

/-- Modelled from the spec: StakingEngine::run_election.  Only the
declaration of run_election survives in the sources
(src/src/core/staking_engine.h); this definition follows the election
algorithm of spec section 4.4: seed from the SHA3 of the concatenated
last-round block hashes, weighted deterministic sampling by successive SHA3
extensions with lexicographic tie-break, permanent candidates prepended to
both sets, and producer/validator overlap resolved by keeping the candidate
as producer and re-drawing the validator slot. -/
def StakingEngine.run_election (cands : List (Key × Nat)) (perms : List Key)
    (last_round_blocks : List Atom) (max_keys : Nat) :
    List Key × List Key :=
  let S := sha3 (last_round_blocks.flatMap wHash)
  let sorted := sortCandidates cands
  let (drawP, i) := drawCandidates S max_keys sorted 0
  let (drawV, j) := drawCandidates S max_keys sorted i
  let producers := dedupKeys (perms ++ drawP)
  let validatorsRaw := dedupKeys (perms ++ drawV)
  let pool := sorted.filter (fun p => p.1 ∉ producers)
  let validators := resolveOverlap S producers validatorsRaw pool j
  (producers, validators)

/-- Configuration::P2P::MINIMUM_VERSION. -/
def MINIMUM_VERSION : Nat := 1

/-- Configuration::P2P::MAXIMUM_PEERS_EXCHANGED. -/
def MAXIMUM_PEERS_EXCHANGED : Nat := 250

/-- Configuration::P2P::PEER_PRUNE_TIME (seconds). -/
def PEER_PRUNE_TIME : Nat := 86400

/-- Types::Network::network_peer_t (header absent from the sources; fields
per the spec's NetworkPeer record). -/
structure network_peer_t where
  address : List Nat
  peer_id : Atom
  port : Nat
  network_id : Atom
  last_seen : Nat
  deriving DecidableEq

/-- Modelled from the spec: packet_handshake_t (1000) — the packet headers
other than peer_exchange are absent from the sources; fields per spec
section 4.6 / 6. -/
structure packet_handshake_t where
  peer_id : Atom
  peer_port : Nat
  network_id : Atom
  version : Nat
  peers : List network_peer_t
  deriving DecidableEq

/-- Modelled from the spec: packet_keepalive_t (1100). -/
structure packet_keepalive_t where
  peer_id : Atom
  version : Nat
  deriving DecidableEq

/-- Types::Network::packet_peer_exchange_t (1200). -/
structure packet_peer_exchange_t where
  peer_id : Atom
  peer_port : Nat
  network_id : Atom
  version : Nat
  peers : List network_peer_t
  deriving DecidableEq

/-- Modelled from the spec: packet_data_t (2000). -/
structure packet_data_t where
  network_id : Atom
  version : Nat
  payload : List Nat
  deriving DecidableEq

/-- Types::Network::network_packet_t. -/
inductive network_packet_t where
  | handshake : packet_handshake_t → network_packet_t
  | keepalive : packet_keepalive_t → network_packet_t
  | peer_exchange : packet_peer_exchange_t → network_packet_t
  | data : packet_data_t → network_packet_t
  deriving DecidableEq

/-- Outbound reply sent through the server ROUTER socket. -/
inductive Reply where
  | handshake : Atom → Reply
  | keepalive : Atom → Reply
  | peer_exchange : Atom → Reply
  deriving DecidableEq

/-- P2P::Node state relevant to packet handling: configuration, the peer
database, the completed-handshake set and the inbound DATA message queue. -/
structure NodeState where
  seed_mode : Bool
  network_id : Atom
  server_identity : Atom
  peer_id : Atom
  peer_db : AtomMap network_peer_t
  completed_handshake : List Atom
  messages : List (Atom × packet_data_t × Bool)
  deriving DecidableEq

/-- PeerDB::add: reject self and entries last seen before the prune window;
otherwise insert keyed by peer id (the node handlers ignore the error). -/
def peer_db_add (now : Nat) (self_peer_id : Atom)
    (db : AtomMap network_peer_t) (entry : network_peer_t) :
    AtomMap network_peer_t :=
  if entry.peer_id = self_peer_id then db
  else if entry.last_seen < now - PEER_PRUNE_TIME then db
  else db.put entry.peer_id entry

/-- PeerDB::touch: refresh last_seen of an existing entry to now. -/
def peer_db_touch (now : Nat) (self_peer_id : Atom)
    (db : AtomMap network_peer_t) (peer_id : Atom) :
    AtomMap network_peer_t :=
  match db.get peer_id with
  | none => db
  | some p => peer_db_add now self_peer_id db { p with last_seen := now }

namespace Node

/-- Node::handle_packet(packet_handshake_t): drop a handshake from an
already-handshaked server peer, from ourselves, from a version below the
minimum, or with an oversized peer list; otherwise record the peers and, on
the server side, reply with a handshake and mark the handshake complete. -/
def handle_handshake (s : NodeState) (now : Nat) (from_id : Atom)
    (peer_address : List Nat) (pkt : packet_handshake_t) (is_server : Bool) :
    NodeState × List Reply :=
  if is_server ∧ from_id ∈ s.completed_handshake then (s, [])
  else if from_id = s.server_identity ∨ pkt.peer_id = s.peer_id then (s, [])
  else if pkt.version < MINIMUM_VERSION then (s, [])
  else if MAXIMUM_PEERS_EXCHANGED < pkt.peers.length then (s, [])
  else
    let entry : network_peer_t :=
      ⟨peer_address, pkt.peer_id, pkt.peer_port, pkt.network_id, now⟩
    let db := peer_db_add now s.peer_id s.peer_db entry
    let db := pkt.peers.foldl
      (fun d p => if p.peer_id = pkt.peer_id then d
                  else peer_db_add now s.peer_id d p) db
    if is_server then
      let s' := { s with peer_db := db }
      let s' := { s' with completed_handshake := from_id :: s'.completed_handshake }
      (s', [Reply.handshake from_id])
    else
      ({ s with peer_db := db }, [])

/-- Node::handle_packet(packet_keepalive_t): the client side only touches
the peer; the server side drops the packet unless the handshake completed
and the sender is valid, then replies and touches. -/
def handle_keepalive (s : NodeState) (now : Nat) (from_id : Atom)
    (pkt : packet_keepalive_t) (is_server : Bool) : NodeState × List Reply :=
  if !is_server then
    ({ s with peer_db := peer_db_touch now s.peer_id s.peer_db pkt.peer_id }, [])
  else if from_id ∉ s.completed_handshake then (s, [])
  else if from_id = s.server_identity ∨ pkt.peer_id = s.peer_id then (s, [])
  else if pkt.version < MINIMUM_VERSION then (s, [])
  else
    ({ s with peer_db := peer_db_touch now s.peer_id s.peer_db pkt.peer_id },
      [Reply.keepalive from_id])

/-- Node::handle_packet(packet_data_t): seed nodes ignore all data; a
mismatched network id, an incomplete handshake, a self-sent message or an old
version is dropped; otherwise the message joins the processing queue. -/
def handle_data (s : NodeState) (from_id : Atom) (pkt : packet_data_t)
    (is_server : Bool) : NodeState × List Reply :=
  if s.seed_mode then (s, [])
  else if pkt.network_id ≠ s.network_id then (s, [])
  else if from_id ∉ s.completed_handshake then (s, [])
  else if from_id = s.server_identity then (s, [])
  else if pkt.version < MINIMUM_VERSION then (s, [])
  else ({ s with messages := s.messages ++ [(from_id, pkt, is_server)] }, [])

/-- Node::handle_packet(packet_peer_exchange_t). -/
def handle_peer_exchange (s : NodeState) (now : Nat) (from_id : Atom)
    (peer_address : List Nat) (pkt : packet_peer_exchange_t)
    (is_server : Bool) : NodeState × List Reply :=
  if is_server ∧ from_id ∉ s.completed_handshake then (s, [])
  else if from_id = s.server_identity ∨ pkt.peer_id = s.peer_id then (s, [])
  else if pkt.version < MINIMUM_VERSION then (s, [])
  else
    let entry : network_peer_t :=
      ⟨peer_address, pkt.peer_id, pkt.peer_port, pkt.network_id, now⟩
    let db := peer_db_add now s.peer_id s.peer_db entry
    let db := pkt.peers.foldl
      (fun d p => if p.peer_id = pkt.peer_id then d
                  else peer_db_add now s.peer_id d p) db
    if is_server then
      ({ s with peer_db := db }, [Reply.peer_exchange from_id])
    else
      ({ s with peer_db := db }, [])

/-- Node::handle_incoming_message: decode the packet type and dispatch to
the per-type handler. -/
def handle_incoming (s : NodeState) (now : Nat) (from_id : Atom)
    (peer_address : List Nat) (pkt : network_packet_t) (is_server : Bool) :
    NodeState × List Reply :=
  match pkt with
  | .handshake p => handle_handshake s now from_id peer_address p is_server
  | .keepalive p => handle_keepalive s now from_id p is_server
  | .peer_exchange p => handle_peer_exchange s now from_id peer_address p is_server
  | .data p => handle_data s from_id p is_server

end Node

/-! Concrete inputs used by the claim theorems, their witnesses and their
counterexamples. -/

/-- All-zero 32-byte object. -/
def keyZ : Key := List.replicate 32 0

/-- Test key of 32 one-bytes. -/
def keyA : Key := List.replicate 32 1

/-- Test key of 32 two-bytes. -/
def keyB : Key := List.replicate 32 2

/-- Concrete transaction output exercising the output store round-trip. -/
def outputC2 : transaction_output_t := ⟨keyA, 5, keyB⟩

/-- Store holding exactly that output, written by put_transaction_output
with unlock_block 0. -/
def storeC2 : BlockchainDB :=
  { BlockchainDB.empty with transaction_outputs :=
      BlockchainStorage.put_transaction_output AtomMap.empty outputC2 0 }

/-- What get_transaction_output actually decodes from that store: the
unlock-block varint byte shifts into public_ephemeral, one key byte becomes
the amount, the amount byte slides into the commitment, and a commitment
byte is read back as the unlock block. -/
def garbledC2 : transaction_output_t :=
  ⟨0 :: List.replicate 31 1, 1, 5 :: List.replicate 31 2⟩

/-- A staker-reward block at the given index with no user transactions. -/
def stakerBlock (i : Nat) : block_t :=
  ⟨1, sha3 [], 1000 + i, i, .staker ⟨1, [⟨sha3 (wVarint i), 7⟩], []⟩,
    [], keyZ, keyZ, []⟩

/-- Store holding blocks at indexes 0, 1, 2, appended through put_block. -/
def storeC3 : BlockchainDB :=
  let d0 := (BlockchainStorage.put_block BlockchainDB.empty (stakerBlock 0) []).2
  let d1 := (BlockchainStorage.put_block d0 (stakerBlock 1) []).2
  (BlockchainStorage.put_block d1 (stakerBlock 2) []).2

/-- Concrete uncommitted stake transaction (any one works). -/
def uncommittedStakeC1 : uncommitted_stake_transaction_t :=
  ⟨2, 0, keyA, 0, 1, [keyB], [outputC2], 100, keyA, keyA, keyB, [Atom.byte 9]⟩

/-- Concrete committed recall-stake transaction (any one works). -/
def committedRecallC4 : committed_recall_stake_transaction_t :=
  ⟨1, 0, keyA, 0, 1, [keyB], [outputC2], 100, keyA, sha3 [], keyB, keyA,
    sha3 [], sha3 [Atom.byte 1]⟩

/-- Concrete version-2 STAKE transaction voting for candidate keyA with
exactly the minimum stake amount. -/
def stakeTxC5 : committed_stake_transaction_t :=
  ⟨2, 0, keyA, 0, 1, [keyB], [outputC2], MINIMUM_STAKE_AMOUNT, keyA, keyA,
    keyB, sha3 []⟩

/-- Staking store where candidate keyA is registered and no stakes exist. -/
def stakingDbC5 : StakingDB :=
  ⟨[(keyA, ⟨keyA, keyA, keyB, REQUIRED_CANDIDACY_AMOUNT⟩)], []⟩

/-- Staker reward transaction paying 1. -/
def stakerTxA : staker_transaction_t := ⟨1, [⟨sha3 [], 1⟩], []⟩

/-- Staker reward transaction paying 2. -/
def stakerTxB : staker_transaction_t := ⟨1, [⟨sha3 [], 2⟩], []⟩

/-- Block listing one transaction hash (used with an empty supplied vector). -/
def blockC6m : block_t :=
  ⟨1, sha3 [], 7, 0, .staker ⟨1, [], []⟩, [stakerTxA.hash], keyZ, keyZ, []⟩

/-- Block listing the two staker transactions in set (ascending) order. -/
def blockC6o : block_t :=
  ⟨1, sha3 [], 7, 0, .staker ⟨1, [], []⟩, [stakerTxA.hash, stakerTxB.hash],
    keyZ, keyZ, []⟩

/-- The same two transactions supplied in the opposite order. -/
def txsC6 : List transaction_t := [.staker stakerTxB, .staker stakerTxA]

/-- Concrete transaction output for the sampling-loop analysis. -/
def outputC7 : transaction_output_t := ⟨keyA, 5, keyB⟩

/-- Store holding exactly outputC7, written by put_transaction_output. -/
def storeC7 : BlockchainDB :=
  { BlockchainDB.empty with transaction_outputs :=
      BlockchainStorage.put_transaction_output AtomMap.empty outputC7 0 }

/-- What the sampling loop decodes from that single stored value (shifted
by the unlock-block varint prefix, like garbledC2). -/
def garbledC7 : transaction_output_t :=
  ⟨0 :: List.replicate 31 1, 1, 5 :: List.replicate 31 2⟩

/-- Concrete node state: a non-seed node with empty peer database, no
completed handshakes and an empty message queue. -/
def nodeStateC9 : NodeState :=
  ⟨false, sha3 [], sha3 [Atom.byte 1], sha3 [Atom.byte 2], [], [], []⟩

/-- Node state in which identity fromC9 has completed its handshake. -/
def nodeStateC9h : NodeState :=
  ⟨false, sha3 [], sha3 [Atom.byte 1], sha3 [Atom.byte 2], [],
    [sha3 [Atom.byte 3]], []⟩

/-- Test peer identity distinct from the node's own identities. -/
def fromC9 : Atom := sha3 [Atom.byte 3]

/-- Concrete keepalive packet. -/
def keepaliveC9 : packet_keepalive_t := ⟨sha3 [Atom.byte 4], 1⟩

/-- Concrete data packet on the node's network. -/
def dataC9 : packet_data_t := ⟨sha3 [], 1, [42]⟩

/-- Concrete handshake packet. -/
def handshakeC9 : packet_handshake_t := ⟨sha3 [Atom.byte 4], 12897, sha3 [], 1, []⟩

/-- Block with one transaction hash and one validator signature recorded. -/
def blockC10 : block_t :=
  ⟨1, sha3 [], 5, 0, .staker ⟨1, [], []⟩, [sha3 []], keyZ, keyZ, [(keyA, keyB)]⟩

/-! Theorems. -/

/-- The idealized SHA3 is injective: equal outputs force equal preimages. -/
theorem sha3_inj {s t : Stream} (h : sha3 s = sha3 t) : s = t := by
  simpa [sha3] using h

/-- Hash identity does hold for the recall-stake pair: to_committed copies
every digest field and stores the computed suffix hashes, so both forms hash
the same three words. -/
theorem recall_stake_hash_identity (u : uncommitted_recall_stake_transaction_t) :
    u.to_committed.hash = u.hash := rfl

/-- Hash identity also holds for the (spec-modelled) normal pair. -/
theorem normal_hash_identity (u : uncommitted_normal_transaction_t) :
    u.to_committed.hash = u.hash := rfl

/-- C1.  The claim asserts u.hash() = u.to_committed().hash() for every
uncommitted user transaction.  For the stake variant the code breaks it:
committed_stake_transaction_t::hash() writes the pruning hash twice
(pruning_hash.serialize(writer) followed by writer.key(pruning_hash)), while
the uncommitted form writes it once, so the two SHA3 preimages differ in
length and the hashes differ for every uncommitted stake transaction —
contradicting the comment in the source that says the two forms must agree. -/
theorem claim_c1_stake_commit_hash_bug
    (u : uncommitted_stake_transaction_t) : u.to_committed.hash ≠ u.hash := by
  intro h
  have h' := sha3_inj h
  simp [wHash] at h'

/-- Concrete instance of the stake hash mismatch, evaluated directly. -/
theorem stake_commit_hash_bug_concrete :
    uncommittedStakeC1.to_committed.hash ≠ uncommittedStakeC1.hash := by decide

/-- C2.  put_transaction_output stores varint(unlock_block) || serialize(output)
under output.hash(), but get_transaction_output deserializes the output from
the start of the value and reads the unlock block after it, so the
round-trip returns a garbled output (the unlock varint byte shifted into the
public ephemeral, a key byte as the amount, the amount byte inside the
commitment) and a wrong unlock block instead of the stored pair. -/
theorem claim_c2_output_store_roundtrip_bug :
    storeC2.transaction_outputs.get outputC2.hash =
      some (wVarint 0 ++ outputC2.serialize) ∧
    BlockchainStorage.get_transaction_output storeC2 outputC2.hash =
      .ok (garbledC2, 2) ∧
    (garbledC2, 2) ≠ (outputC2, 0) := by
  refine ⟨by decide, by rfl, by decide⟩

/-- C3.  Blocks sit at indexes 0..count-1, yet rewind deletes from
i = get_block_count() down to N+1; the very first del_block(count) looks up
an index that holds no block, so rewind returns DB_BLOCK_NOT_FOUND and
leaves the store untouched: with blocks 0, 1, 2 stored, rewind(1) fails and
the block count stays 3 instead of becoming 1. -/
theorem claim_c3_rewind_off_by_one :
    BlockchainStorage.block_exists storeC3 1 = true ∧
    BlockchainStorage.get_block_count storeC3 = 3 ∧
    BlockchainStorage.rewind storeC3 1 = (.DB_BLOCK_NOT_FOUND, storeC3) := by
  refine ⟨by decide, by decide, by decide⟩

/-- C4 counterexample: a concrete committed recall-stake transaction whose
content hash is not the SHA3 of its serialization — hash() is
SHA3(digest || signature_hash || range_proof_hash), whose preimage starts
with a 32-byte SHA3 word, while serialize() starts with the type varint. -/
theorem claim_c4_counterexample :
    sha3 committedRecallC4.serialize ≠ committedRecallC4.hash := by decide

/-- C4, amended.  SHA3(serialize(t)) = t.hash() holds exactly for the
GENESIS, STAKER_REWARD and STAKE_REFUND variants; for the committed and
uncommitted NORMAL, STAKE and RECALL_STAKE forms the hash is computed from
the digest and the suffix hashes and never equals SHA3(serialize(t)). -/
theorem claim_c4_amended :
    (∀ t : genesis_transaction_t, sha3 t.serialize = t.hash) ∧
    (∀ t : staker_transaction_t, sha3 t.serialize = t.hash) ∧
    (∀ t : stake_refund_transaction_t, sha3 t.serialize = t.hash) ∧
    (∀ t : committed_normal_transaction_t, sha3 t.serialize ≠ t.hash) ∧
    (∀ t : uncommitted_normal_transaction_t, sha3 t.serialize ≠ t.hash) ∧
    (∀ t : committed_stake_transaction_t, sha3 t.serialize ≠ t.hash) ∧
    (∀ t : uncommitted_stake_transaction_t, sha3 t.serialize ≠ t.hash) ∧
    (∀ t : committed_recall_stake_transaction_t, sha3 t.serialize ≠ t.hash) ∧
    (∀ t : uncommitted_recall_stake_transaction_t, sha3 t.serialize ≠ t.hash) := by
  refine ⟨fun t => rfl, fun t => rfl, fun t => rfl, ?_, ?_, ?_, ?_, ?_, ?_⟩
  all_goals
    intro t h
    have h' := sha3_inj h
    simp [transaction_output_t.serialize, committed_normal_transaction_t.serialize,
      uncommitted_normal_transaction_t.serialize,
      committed_stake_transaction_t.serialize,
      uncommitted_stake_transaction_t.serialize,
      committed_recall_stake_transaction_t.serialize,
      uncommitted_recall_stake_transaction_t.serialize,
      committed_normal_transaction_t.serialize_digest,
      uncommitted_normal_transaction_t.serialize_digest,
      committed_stake_transaction_t.serialize_digest,
      uncommitted_stake_transaction_t.serialize_digest,
      committed_recall_stake_transaction_t.serialize_digest,
      uncommitted_recall_stake_transaction_t.serialize_digest,
      committed_recall_stake_transaction_t.serialize_suffix,
      uncommitted_recall_stake_transaction_t.serialize_suffix,
      committed_stake_transaction_t.serialize_suffix,
      committed_normal_transaction_t.hash, uncommitted_normal_transaction_t.hash,
      committed_stake_transaction_t.hash, uncommitted_stake_transaction_t.hash,
      committed_recall_stake_transaction_t.hash,
      uncommitted_recall_stake_transaction_t.hash,
      committed_normal_transaction_t.digest, uncommitted_normal_transaction_t.digest,
      committed_stake_transaction_t.digest, uncommitted_stake_transaction_t.digest,
      committed_recall_stake_transaction_t.digest,
      uncommitted_recall_stake_transaction_t.digest,
      uncommitted_stake_transaction_t.pruning_hash, sha3,
      serializePrefix, wVarint, wHash, wKey, varintEncode, varintEncodeAux,
      TX_NORMAL, TX_STAKE, TX_RECALL_STAKE] at h'

/-- C5.  StakingEngine::add_stake on a version-2 STAKE transaction whose
candidate exists and whose amount meets the minimum returns SUCCESS, but the
vote-recording body is a TODO in the source: the staking store — in
particular the stakes sub-database — is returned unchanged, so no vote is
recorded. -/
theorem claim_c5_add_stake_v2_records_nothing :
    stakeTxC5.version = 2 ∧
    stakingDbC5.candidates.contains stakeTxC5.candidate_public_key = true ∧
    MINIMUM_STAKE_AMOUNT ≤ stakeTxC5.stake_amount ∧
    StakingEngine.add_stake stakingDbC5 stakeTxC5 = (.SUCCESS, stakingDbC5) ∧
    stakingDbC5.stakes = [] := by
  refine ⟨by decide, by decide, by decide, by decide, by decide⟩

/-- C6.  put_block returns BLOCK_TXN_MISMATCH when the supplied transaction
count differs from the block's hash-set size, and BLOCK_TXN_ORDER when the
counts agree but the SHA3 of the concatenated set-order hashes differs from
the SHA3 of the concatenated supplied-order transaction hashes; in both
cases it returns before any write, leaving the store unchanged. -/
theorem claim_c6_put_block_precondition
    (db : BlockchainDB) (block : block_t) (txs : List transaction_t) :
    (txs.length ≠ block.transactions.length →
      BlockchainStorage.put_block db block txs = (.BLOCK_TXN_MISMATCH, db)) ∧
    (txs.length = block.transactions.length →
      sha3 (block.transactions.flatMap wHash) ≠
        sha3 ((txs.map transaction_t.hash).flatMap wHash) →
      BlockchainStorage.put_block db block txs = (.BLOCK_TXN_ORDER, db)) := by
  constructor
  · intro h
    simp [BlockchainStorage.put_block, h]
  · intro h hne
    simp [BlockchainStorage.put_block, h, hne]

/-- C6 witness: a count mismatch (one listed hash, empty vector) and an
order mismatch (two transactions supplied in the reverse of set order), both
rejected with the empty store unchanged. -/
theorem claim_c6_witness :
    (([] : List transaction_t).length ≠ blockC6m.transactions.length ∧
      BlockchainStorage.put_block BlockchainDB.empty blockC6m [] =
        (.BLOCK_TXN_MISMATCH, BlockchainDB.empty)) ∧
    (txsC6.length = blockC6o.transactions.length ∧
      sha3 (blockC6o.transactions.flatMap wHash) ≠
        sha3 ((txsC6.map transaction_t.hash).flatMap wHash) ∧
      BlockchainStorage.put_block BlockchainDB.empty blockC6o txsC6 =
        (.BLOCK_TXN_ORDER, BlockchainDB.empty)) :=
  ⟨⟨by decide,
      (claim_c6_put_block_precondition BlockchainDB.empty blockC6m []).1
        (by decide)⟩,
    ⟨by decide, by decide,
      (claim_c6_put_block_precondition BlockchainDB.empty blockC6o txsC6).2
        (by decide) (by decide)⟩⟩

/-- Helper for C7: one step of the sampling loop on the single-entry output
store never makes progress, because the stored value misparses (the decoded
output does not hash back to the cursor key), so every probe is skipped. -/
theorem c7_loop_never_completes (rands : Nat → Atom) :
    ∀ (fuel i : Nat),
      getRandomOutputsLoop [(outputC7.hash, wVarint 0 ++ outputC7.serialize)]
        0 1 rands [] i fuel = none := by
  intro fuel
  induction fuel with
  | zero => intro i; rfl
  | succ n ih =>
    intro i
    rw [getRandomOutputsLoop]
    rw [if_pos (by decide : ([] : List transaction_output_t).length < 1)]
    rcases hc : Atom.cmp (rands i) outputC7.hash with _ | _ | _
    · simp only [cursorSetRange, hc]
      exact ih (i + 1)
    · simp only [cursorSetRange, hc]
      exact ih (i + 1)
    · simp only [cursorSetRange, hc]
      exact ih (i + 1)

/-- C7.  get_random_outputs(0, 1) on a store holding one output (so the
output_count precondition is met) never returns: every MDB_SET_RANGE hit
decodes the value from its beginning although put_transaction_output packed
the unlock-block varint in front, the decoded output fails the
hash-equals-key check, and the sampling loop skips it forever — for every
iteration bound and every stream of random probes the loop is still running,
instead of returning exactly one output. -/
theorem claim_c7_random_outputs_never_completes :
    BlockchainStorage.output_count storeC7 = 1 ∧
    ∀ (rands : Nat → Atom) (fuel : Nat),
      BlockchainStorage.get_random_outputs storeC7 0 1 rands fuel = none := by
  constructor
  · decide
  · intro rands fuel
    show (if storeC7.transaction_outputs.count < 1 then _ else _) = _
    rw [if_neg (by decide : ¬storeC7.transaction_outputs.count < 1)]
    have hs : storeC7.transaction_outputs =
        [(outputC7.hash, wVarint 0 ++ outputC7.serialize)] := rfl
    rw [hs, c7_loop_never_completes rands fuel 0]
    rfl

/-- Helper for C8: the cumulative-band walk only ever selects a key that is
present in the candidate list. -/
theorem weightedPickLoop_mem :
    ∀ (l : List (Key × Nat)) (r : Nat) (k : Key),
      weightedPickLoop l r = some k → k ∈ l.map Prod.fst := by
  intro l
  induction l with
  | nil => intro r k h; simp [weightedPickLoop] at h
  | cons p rest ih =>
    intro r k h
    rcases p with ⟨key, w⟩
    rw [weightedPickLoop] at h
    by_cases hr : r < w
    · rw [if_pos hr] at h
      simp only [Option.some.injEq] at h
      simp [h]
    · rw [if_neg hr] at h
      simpa using Or.inr (ih (r - w) k h)

/-- Helper for C8: weighted selection only returns listed candidates. -/
theorem weightedPick_mem (l : List (Key × Nat)) (r : Nat) (k : Key)
    (h : weightedPick l r = some k) : k ∈ l.map Prod.fst := by
  rw [weightedPick] at h
  by_cases ht : (l.map Prod.snd).sum = 0
  · simp [ht] at h
  · rw [if_neg ht] at h
    exact weightedPickLoop_mem l _ k h

/-- Helper for C8: overlap resolution never seats a producer as validator —
kept slots passed the membership test, re-drawn slots come from a pool that
contains no producers. -/
theorem resolveOverlap_disjoint (S : Atom) (producers : List Key) :
    ∀ (vs : List Key) (pool : List (Key × Nat)) (i : Nat),
      (∀ p ∈ pool, p.1 ∉ producers) →
      ∀ x ∈ resolveOverlap S producers vs pool i, x ∉ producers := by
  intro vs
  induction vs with
  | nil => intro pool i hp x hx; simp [resolveOverlap] at hx
  | cons v rest ih =>
    intro pool i hp x hx
    rw [resolveOverlap] at hx
    by_cases hv : v ∈ producers
    · rw [if_pos hv] at hx
      rcases hw : weightedPick pool (Atom.seedNat (seedExtend S i)) with _ | k
      · rw [hw] at hx
        exact ih pool (i + 1) hp x hx
      · rw [hw] at hx
        rcases List.mem_cons.mp hx with rfl | hx'
        · obtain ⟨p, hpmem, hpk⟩ := List.mem_map.mp (weightedPick_mem pool _ x hw)
          exact hpk ▸ hp p hpmem
        · refine ih _ (i + 1) ?_ x hx'
          intro p hpf
          exact hp p (List.mem_of_mem_filter hpf)
    · rw [if_neg hv] at hx
      rcases List.mem_cons.mp hx with rfl | hx'
      · exact hv
      · exact ih pool (i + 1) hp x hx'

/-- C8.  The election is a pure function of the stake state, the last-round
block hashes and the key bound — two runs over equal inputs return
identical producer and validator lists — and no candidate key appears in
both returned lists: a candidate drawn for both stays producer and its
validator slot is re-drawn from the non-producer pool. -/
theorem claim_c8_election_deterministic_disjoint
    (cands : List (Key × Nat)) (perms : List Key) (H : List Atom) (k : Nat) :
    (∀ (cands2 : List (Key × Nat)) (perms2 : List Key) (H2 : List Atom),
      cands2 = cands → perms2 = perms → H2 = H →
      StakingEngine.run_election cands2 perms2 H2 k =
        StakingEngine.run_election cands perms H k) ∧
    (∀ x ∈ (StakingEngine.run_election cands perms H k).2,
      x ∉ (StakingEngine.run_election cands perms H k).1) := by
  constructor
  · intro cands2 perms2 H2 h1 h2 h3
    rw [h1, h2, h3]
  · rw [StakingEngine.run_election]
    intro x hx
    refine resolveOverlap_disjoint _ _ _ _ _ ?_ x hx
    intro p hp
    have := List.mem_filter.mp hp
    simpa using this.2

/-- C8 witness: both parts applied with one staked candidate, one permanent
candidate and a singleton block-hash history. -/
theorem claim_c8_election_witness :
    StakingEngine.run_election [(keyA, 7)] [keyB] [sha3 []] 2 =
      StakingEngine.run_election [(keyA, 7)] [keyB] [sha3 []] 2 ∧
    ∀ x ∈ (StakingEngine.run_election [(keyA, 7)] [keyB] [sha3 []] 2).2,
      x ∉ (StakingEngine.run_election [(keyA, 7)] [keyB] [sha3 []] 2).1 :=
  ⟨(claim_c8_election_deterministic_disjoint [(keyA, 7)] [keyB] [sha3 []] 2).1
      [(keyA, 7)] [keyB] [sha3 []] rfl rfl rfl,
    (claim_c8_election_deterministic_disjoint [(keyA, 7)] [keyB] [sha3 []] 2).2⟩

/-- C9.  Server-side connection gating: a KEEPALIVE or DATA packet from an
identity that has not completed a handshake is dropped with the node state
unchanged — no reply is sent and no message is enqueued; a HANDSHAKE from an
identity that already completed one is likewise dropped; and the
completed-handshake set (the ESTABLISHED state) only ever grows by the
sender of a server-side HANDSHAKE that passed every validation: not already
handshaked, not from ourselves, version at least the minimum, and at most
the maximum number of exchanged peers. -/
theorem claim_c9_server_handshake_gating :
    (∀ (s : NodeState) (now : Nat) (from_id : Atom) (pkt : packet_keepalive_t),
      from_id ∉ s.completed_handshake →
      Node.handle_keepalive s now from_id pkt true = (s, [])) ∧
    (∀ (s : NodeState) (from_id : Atom) (pkt : packet_data_t),
      from_id ∉ s.completed_handshake →
      Node.handle_data s from_id pkt true = (s, [])) ∧
    (∀ (s : NodeState) (now : Nat) (from_id : Atom) (addr : List Nat)
        (pkt : packet_handshake_t),
      from_id ∈ s.completed_handshake →
      Node.handle_handshake s now from_id addr pkt true = (s, [])) ∧
    (∀ (s : NodeState) (now : Nat) (from_id : Atom) (addr : List Nat)
        (pkt : network_packet_t) (sv : Bool) (x : Atom),
      x ∈ (Node.handle_incoming s now from_id addr pkt sv).1.completed_handshake →
      x ∈ s.completed_handshake ∨
        (sv = true ∧ x = from_id ∧ ∃ hs, pkt = .handshake hs ∧
          from_id ∉ s.completed_handshake ∧
          from_id ≠ s.server_identity ∧ hs.peer_id ≠ s.peer_id ∧
          MINIMUM_VERSION ≤ hs.version ∧
          hs.peers.length ≤ MAXIMUM_PEERS_EXCHANGED)) := by
  refine ⟨?_, ?_, ?_, ?_⟩
  · intro s now from_id pkt hm
    simp [Node.handle_keepalive, hm]
  · intro s from_id pkt hm
    rw [Node.handle_data]
    split_ifs <;> simp_all
  · intro s now from_id addr pkt hm
    simp [Node.handle_handshake, hm]
  · intro s now from_id addr pkt sv x hx
    rcases pkt with p | p | p | p
    · rw [Node.handle_incoming, Node.handle_handshake] at hx
      split_ifs at hx with h1 h2 h3 h4 h5
      · exact Or.inl hx
      · exact Or.inl hx
      · exact Or.inl hx
      · exact Or.inl hx
      · have hx' : x ∈ from_id :: s.completed_handshake := hx
        rcases List.mem_cons.mp hx' with rfl | hmem
        · refine Or.inr ⟨h5, rfl, p, rfl, ?_, ?_, ?_, ?_, ?_⟩
          · intro hmem2; exact h1 ⟨h5, hmem2⟩
          · exact (not_or.mp h2).1
          · exact (not_or.mp h2).2
          · exact Nat.le_of_not_lt h3
          · exact Nat.le_of_not_lt h4
        · exact Or.inl hmem
      · exact Or.inl hx
    · rw [Node.handle_incoming, Node.handle_keepalive] at hx
      split_ifs at hx <;> exact Or.inl hx
    · rw [Node.handle_incoming, Node.handle_peer_exchange] at hx
      split_ifs at hx <;> exact Or.inl hx
    · rw [Node.handle_incoming, Node.handle_data] at hx
      split_ifs at hx <;> exact Or.inl hx

/-- C9 witness: the gating statements applied at a concrete node state with
concrete packets from an un-handshaked and a handshaked identity. -/
theorem claim_c9_server_handshake_gating_witness :
    Node.handle_keepalive nodeStateC9 1000 fromC9 keepaliveC9 true =
      (nodeStateC9, []) ∧
    Node.handle_data nodeStateC9 fromC9 dataC9 true = (nodeStateC9, []) ∧
    Node.handle_handshake nodeStateC9h 1000 fromC9 [127, 0, 0, 1] handshakeC9
      true = (nodeStateC9h, []) ∧
    (fromC9 ∈ (Node.handle_incoming nodeStateC9 1000 fromC9 [127, 0, 0, 1]
        (.handshake handshakeC9) true).1.completed_handshake →
      fromC9 ∈ nodeStateC9.completed_handshake ∨
        (true = true ∧ fromC9 = fromC9 ∧ ∃ hs,
          network_packet_t.handshake handshakeC9 = .handshake hs ∧
          fromC9 ∉ nodeStateC9.completed_handshake ∧
          fromC9 ≠ nodeStateC9.server_identity ∧
          hs.peer_id ≠ nodeStateC9.peer_id ∧
          MINIMUM_VERSION ≤ hs.version ∧
          hs.peers.length ≤ MAXIMUM_PEERS_EXCHANGED)) :=
  ⟨claim_c9_server_handshake_gating.1 nodeStateC9 1000 fromC9 keepaliveC9
      (by decide),
    claim_c9_server_handshake_gating.2.1 nodeStateC9 fromC9 dataC9 (by decide),
    claim_c9_server_handshake_gating.2.2.1 nodeStateC9h 1000 fromC9 [127, 0, 0, 1]
      handshakeC9 (by decide),
    fun hx => claim_c9_server_handshake_gating.2.2.2 nodeStateC9 1000 fromC9
      [127, 0, 0, 1] (.handshake handshakeC9) true fromC9 hx⟩

/-- C10.  The block mutation helpers are idempotent: appending a transaction
hash already in the set leaves the block unchanged, and appending a
validator signature under an already-present public key leaves the block —
including the original signature — unchanged. -/
theorem claim_c10_append_idempotent :
    (∀ (b : block_t) (h : Atom), h ∈ b.transactions →
      b.append_transaction_hash h = b) ∧
    (∀ (b : block_t) (pk sig : Key),
      pk ∈ b.validator_signatures.map Prod.fst →
      b.append_validator_signature pk sig = b) := by
  constructor
  · intro b h hm
    simp [block_t.append_transaction_hash, hm]
  · intro b pk sig hm
    simp only [block_t.append_validator_signature]
    rw [if_pos]
    simpa using hm

/-- C10 witness: both idempotence statements applied at a concrete block. -/
theorem claim_c10_append_idempotent_witness :
    sha3 [] ∈ blockC10.transactions ∧
    blockC10.append_transaction_hash (sha3 []) = blockC10 ∧
    keyA ∈ blockC10.validator_signatures.map Prod.fst ∧
    blockC10.append_validator_signature keyA keyZ = blockC10 :=
  ⟨by decide,
    claim_c10_append_idempotent.1 blockC10 (sha3 []) (by decide),
    by decide,
    claim_c10_append_idempotent.2 blockC10 keyA keyZ (by decide)⟩

end Turtle


